import Mathlib

/-!
Verification of the output-recovery pipeline of `streamlit_app.py`
(Resume-analyzer).  The definitions below are a shallow embedding of the
relevant parts of the source:

* `analyze_extract` / `candidateChars` embed the tiered JSON-recovery
  ladder of `analyze_resume` (src lines 72-98): regex fence extraction,
  bare-marker stripping, brace completion, and `json.loads`.
* `json_loads` models Python's `json.loads` on the JSON value grammar.
  Embedding restrictions (none of which the claims touch): numeric
  literals are modelled for integers only (floats are not representable
  in this development), `NaN`/`Infinity` extensions are not modelled,
  and lone UTF-16 surrogate escapes are rejected rather than producing
  non-scalar strings (Lean strings can only hold unicode scalars).
  Word characters and whitespace are modelled on their ASCII subsets.
* `exportChars` embeds `json.dumps(·, indent=2)` (src line 164)
  specialised to the four-field analysis record shape.
* `truncate_input` embeds the truncation step (src lines 38-39) over an
  abstract tokenizer, the external collaborator of the pipeline.
-/

/-- JSON values as produced by the parser: Python dicts become ordered
association lists (insertion order, duplicate keys collapsed as by
Python's `dict`). -/
inductive JValue where
  | jnull : JValue
  | jbool : Bool → JValue
  | jint : Int → JValue
  | jstr : String → JValue
  | jarr : List JValue → JValue
  | jobj : List (String × JValue) → JValue

/-- JSON whitespace skipped by Python's `json` scanner: exactly
space, tab, newline, carriage return. -/
def jsonWs (c : Char) : Bool :=
  c == ' ' || c == '\t' || c == '\n' || c == '\r'

/-- Whitespace for Python's `str.strip()` and the regex class `\s`
(ASCII subset). -/
def pyWs (c : Char) : Bool :=
  c == ' ' || c == '\t' || c == '\n' || c == '\r' || c == '\x0b' || c == '\x0c'

/-- Skip JSON whitespace. -/
def skipWs (cs : List Char) : List Char := cs.dropWhile jsonWs

/-- Python `str.strip()` on a list of characters. -/
def pyStripL (cs : List Char) : List Char :=
  ((cs.dropWhile pyWs).reverse.dropWhile pyWs).reverse

/-- Value of a hexadecimal digit, as accepted in a `\uXXXX` escape. -/
def hexVal (c : Char) : Option Nat :=
  if '0' ≤ c ∧ c ≤ '9' then some (c.toNat - 48)
  else if 'a' ≤ c ∧ c ≤ 'f' then some (c.toNat - 87)
  else if 'A' ≤ c ∧ c ≤ 'F' then some (c.toNat - 55)
  else none

/-- Decode the `\uXXXX` form of a JSON escape (after `\u`): four hex
digits, with a following low-surrogate escape required and combined when
the first four digits are a high surrogate.  Lone surrogates are
rejected (see module comment). -/
def decodeUEscape (r : List Char) : Option (Char × List Char) :=
  match r with
  | h1 :: h2 :: h3 :: h4 :: rr =>
    match hexVal h1, hexVal h2, hexVal h3, hexVal h4 with
    | some a, some b, some c, some d =>
      let n := 4096 * a + 256 * b + 16 * c + d
      if 55296 ≤ n ∧ n ≤ 56319 then
        match rr with
        | e1 :: e2 :: g1 :: g2 :: g3 :: g4 :: r2 =>
          if e1 == '\\' && e2 == 'u' then
            match hexVal g1, hexVal g2, hexVal g3, hexVal g4 with
            | some a2, some b2, some c2, some d2 =>
              let m := 4096 * a2 + 256 * b2 + 16 * c2 + d2
              if 56320 ≤ m ∧ m ≤ 57343 then
                some (Char.ofNat (65536 + 1024 * (n - 55296) + (m - 56320)), r2)
              else none
            | _, _, _, _ => none
          else none
        | _ => none
      else if 56320 ≤ n ∧ n ≤ 57343 then none
      else some (Char.ofNat n, rr)
    | _, _, _, _ => none
  | _ => none

/-- Decode one JSON escape sequence (the part after the backslash):
returns the decoded character and the remaining input. -/
def decodeEscape (rest : List Char) : Option (Char × List Char) :=
  match rest with
  | [] => none
  | e :: r =>
    if e == '"' then some ('"', r)
    else if e == '\\' then some ('\\', r)
    else if e == '/' then some ('/', r)
    else if e == 'b' then some ('\x08', r)
    else if e == 'f' then some ('\x0c', r)
    else if e == 'n' then some ('\n', r)
    else if e == 'r' then some ('\r', r)
    else if e == 't' then some ('\t', r)
    else if e == 'u' then decodeUEscape r
    else none

/-- Body of a JSON string literal, after the opening quote: returns the
decoded characters and the input following the closing quote.  Escapes
and the rejection of raw control characters follow Python's strict
`json.loads`.  The fuel argument is an embedding artifact: one unit is
spent per decoded character and every step consumes at least one input
character, so any fuel above the input length gives the parse's true
result. -/
def parseJStringBody : Nat → List Char → Option (List Char × List Char)
  | 0, _ => none
  | fuel + 1, cs =>
    match cs with
    | [] => none
    | c :: rest =>
      if c == '"' then some ([], rest)
      else if c == '\\' then
        match decodeEscape rest with
        | some dr => (parseJStringBody fuel dr.2).map (fun p => (dr.1 :: p.1, p.2))
        | none => none
      else if c.toNat < 32 then none
      else (parseJStringBody fuel rest).map (fun p => (c :: p.1, p.2))

/-- Numeric value of a digit string. -/
def digitsToNat (ds : List Char) : Nat :=
  ds.foldl (fun a c => a * 10 + (c.toNat - 48)) 0

/-- JSON integer literal (the float productions `.`/`e`/`E` are outside
this embedding and rejected; `json.loads` would build a float there). -/
def parseNumber (cs : List Char) : Option (JValue × List Char) :=
  let p : Bool × List Char :=
    match cs with
    | '-' :: t => (true, t)
    | _ => (false, cs)
  let digs := p.2.takeWhile Char.isDigit
  let rest := p.2.dropWhile Char.isDigit
  if digs.isEmpty then none
  else if decide (1 < digs.length) && (digs.head? == some '0') then none
  else
    match rest with
    | '.' :: _ => none
    | 'e' :: _ => none
    | 'E' :: _ => none
    | _ =>
      let n : Int := Int.ofNat (digitsToNat digs)
      some (JValue.jint (if p.1 then -n else n), rest)

/-- Insertion into a Python `dict` built from parsed key/value pairs:
an existing key is overwritten in place, a new key appended. -/
def dictInsert (l : List (String × JValue)) (k : String) (v : JValue) :
    List (String × JValue) :=
  if l.any (fun p => p.1 == k) then
    l.map (fun p => if p.1 == k then (k, v) else p)
  else l ++ [(k, v)]

/-- Collapse the parsed member list the way Python's `dict` constructor
does. -/
def mkDict (ps : List (String × JValue)) : List (String × JValue) :=
  ps.foldl (fun acc p => dictInsert acc p.1 p.2) []

/-- Parsing mode: a single value, the items of a non-empty array, or the
members of a non-empty object. -/
inductive PMode where
  | value : PMode
  | items : PMode
  | members : PMode

/-- Result of one `parseCore` call. -/
inductive POut where
  | pval : JValue → POut
  | pitems : List JValue → POut
  | pmembers : List (String × JValue) → POut

/-- Recursive core of the `json.loads` model.  The fuel argument is an
artifact of the embedding: every recursive call decrements it, and the
entry point supplies more fuel than any parse can consume, so it never
changes the result. -/
def parseCore : Nat → PMode → List Char → Option (POut × List Char)
  | 0, _, _ => none
  | fuel + 1, PMode.value, cs =>
    match skipWs cs with
    | [] => none
    | c :: r =>
      if c == '"' then
        match parseJStringBody (r.length + 1) r with
        | some p => some (POut.pval (JValue.jstr (String.mk p.1)), p.2)
        | none => none
      else if c == '\x7b' then
        match skipWs r with
        | '\x7d' :: r2 => some (POut.pval (JValue.jobj []), r2)
        | r2 =>
          match parseCore fuel PMode.members r2 with
          | some (POut.pmembers ps, rest) =>
            some (POut.pval (JValue.jobj (mkDict ps)), rest)
          | _ => none
      else if c == '[' then
        match skipWs r with
        | ']' :: r2 => some (POut.pval (JValue.jarr []), r2)
        | r2 =>
          match parseCore fuel PMode.items r2 with
          | some (POut.pitems vs, rest) => some (POut.pval (JValue.jarr vs), rest)
          | _ => none
      else if c == 't' then
        match r with
        | 'r' :: 'u' :: 'e' :: rest => some (POut.pval (JValue.jbool true), rest)
        | _ => none
      else if c == 'f' then
        match r with
        | 'a' :: 'l' :: 's' :: 'e' :: rest => some (POut.pval (JValue.jbool false), rest)
        | _ => none
      else if c == 'n' then
        match r with
        | 'u' :: 'l' :: 'l' :: rest => some (POut.pval JValue.jnull, rest)
        | _ => none
      else
        match parseNumber (c :: r) with
        | some (v, rest) => some (POut.pval v, rest)
        | none => none
  | fuel + 1, PMode.items, cs =>
    match parseCore fuel PMode.value cs with
    | some (POut.pval v, rest) =>
      match skipWs rest with
      | ',' :: r2 =>
        match parseCore fuel PMode.items r2 with
        | some (POut.pitems vs, rest2) => some (POut.pitems (v :: vs), rest2)
        | _ => none
      | ']' :: r2 => some (POut.pitems [v], r2)
      | _ => none
    | _ => none
  | fuel + 1, PMode.members, cs =>
    match skipWs cs with
    | '"' :: r =>
      match parseJStringBody (r.length + 1) r with
      | some kp =>
        match skipWs kp.2 with
        | ':' :: r2 =>
          match parseCore fuel PMode.value r2 with
          | some (POut.pval v, rest2) =>
            match skipWs rest2 with
            | ',' :: r3 =>
              match parseCore fuel PMode.members r3 with
              | some (POut.pmembers ps, rest3) =>
                some (POut.pmembers ((String.mk kp.1, v) :: ps), rest3)
              | _ => none
            | '\x7d' :: r3 => some (POut.pmembers [(String.mk kp.1, v)], r3)
            | _ => none
          | _ => none
        | _ => none
      | none => none
    | _ => none

/-- Model of Python's `json.loads`: one JSON value, optionally surrounded
by JSON whitespace, nothing else. -/
def json_loads (s : String) : Option JValue :=
  match parseCore (4 * s.data.length + 16) PMode.value s.data with
  | some (POut.pval v, rest) => if skipWs rest == [] then some v else none
  | _ => none

/-- The backtick character (written via its code point). -/
def btick : Char := Char.ofNat 96

/-- The opening fence token searched for by the regex at src line 76. -/
def openFence : List Char := [btick, btick, btick, 'j', 's', 'o', 'n']

/-- The closing fence token (three backticks). -/
def cccPat : List Char := [btick, btick, btick]

/-- Split a character list at the first occurrence of `pat`: returns the
text before the occurrence and the text after it. -/
def splitAtSub (pat : List Char) : List Char → Option (List Char × List Char)
  | [] => if pat.isPrefixOf ([] : List Char) then some ([], []) else none
  | c :: t =>
    if pat.isPrefixOf (c :: t) then some ([], (c :: t).drop pat.length)
    else (splitAtSub pat t).map (fun p => (c :: p.1, p.2))

/-- Whether `pat` occurs as a contiguous substring. -/
def hasSub (pat cs : List Char) : Bool := (splitAtSub pat cs).isSome

/-- Tier 1 (src line 76): content captured by
`re.search(r'```json\s*([\s\S]*?)\s*```', raw_output)`, i.e. the text
between the first "```json" and the first "```" after it (the regex's
`\s*` trimming is subsumed by the `.strip()` applied at line 78). -/
def fenceContent (raw : List Char) : Option (List Char) :=
  match splitAtSub openFence raw with
  | none => none
  | some p =>
    match splitAtSub cccPat p.2 with
    | none => none
    | some q => some q.1

/-- Tier 2 (src line 81): `re.sub(r'^(json|JSON)\s*', '', raw_output,
flags=re.IGNORECASE)` — strip one leading case-insensitive `json` marker
and the whitespace after it. -/
def stripMarker : List Char → List Char
  | c1 :: c2 :: c3 :: c4 :: rest =>
    if c1.toLower == 'j' && c2.toLower == 's' && c3.toLower == 'o' && c4.toLower == 'n' then
      rest.dropWhile pyWs
    else c1 :: c2 :: c3 :: c4 :: rest
  | cs => cs

/-- Word characters of the regex class `\w` (ASCII subset). -/
def isWordChar (c : Char) : Bool := c.isAlphanum || c == '_'

/-- Tier 3 test (src line 84): `re.match(r'"\w+":', cleaned)`. -/
def matchQuotedKey : List Char → Bool
  | '"' :: rest =>
    let run := rest.takeWhile isWordChar
    match rest.drop run.length with
    | '"' :: ':' :: _ => !run.isEmpty
    | _ => false
  | _ => false

/-- Tier 3 test (src line 84): `re.match(r'\w+:', cleaned)`. -/
def matchBareKey (cs : List Char) : Bool :=
  let run := cs.takeWhile isWordChar
  match cs.drop run.length with
  | ':' :: _ => !run.isEmpty
  | _ => false

/-- The candidate text handed to `json.loads` (src lines 76-89):
fence extraction, else marker strip + strip, then brace completion when
the cleaned text is non-empty, is not already `{...}`-wrapped, and looks
like object interior. -/
def candidateChars (raw : List Char) : List Char :=
  match fenceContent raw with
  | some content => pyStripL content
  | none =>
    let cleaned := pyStripL (stripMarker raw)
    if !cleaned.isEmpty &&
        !((cleaned.head? == some '\x7b') && (cleaned.getLast? == some '\x7d')) then
      if matchQuotedKey cleaned || matchBareKey cleaned then
        '\x7b' :: (cleaned ++ ['\x7d'])
      else cleaned
    else cleaned

/-- String-level wrapper for the candidate computation. -/
def candidateText (raw : String) : String := String.mk (candidateChars raw.data)

/-- The fixed error message placed in the failure value (src line 96). -/
def parseErrorMsg : String := "Failed to parse AI output as JSON. See logs for details."

/-- The extraction ladder of `analyze_resume` from the raw model output
(after the `.strip()` of src line 70) to the returned value (src lines
72-98): the parsed JSON value on success, otherwise the two-field
diagnostic dict built at line 96. -/
def analyze_extract (raw_output : String) : JValue :=
  match json_loads (candidateText raw_output) with
  | some v => v
  | none =>
    JValue.jobj [("error", JValue.jstr parseErrorMsg),
                 ("raw_output", JValue.jstr raw_output)]

/-- Key membership in a parsed object (`"k" in d` on a Python dict). -/
def hasKey (v : JValue) (k : String) : Bool :=
  match v with
  | JValue.jobj l => l.any (fun p => p.1 == k)
  | _ => false

/-- Field lookup in a parsed object (`d.get(k)` / `d[k]`). -/
def jLookup (v : JValue) (k : String) : Option JValue :=
  match v with
  | JValue.jobj l => (l.find? (fun p => p.1 == k)).map (fun p => p.2)
  | _ => none

/-- Characters that a JSON string literal carries through unchanged in
both directions (printable, not quote, not backslash). -/
def plainChar (c : Char) : Bool :=
  decide (32 ≤ c.toNat) && c != '"' && c != '\\'

/-- Statement that `parseCore` produces `out` with remainder `rest` from
`cs` in mode `mode` for every fuel of at least `n`. -/
def ParsesTo (mode : PMode) (cs : List Char) (out : POut) (rest : List Char) (n : Nat) : Prop :=
  ∀ fuel, n ≤ fuel → parseCore fuel mode cs = some (out, rest)

/-- Modelled from the spec: the generation model's tokenizer is the
external collaborator of §4.1/§4.3 (the `transformers` tokenizer loaded
at src lines 19-24 is not part of this repository), abstracted to an
encode/decode pair on token id sequences. -/
structure Tokenizer where
  encode : String → List Nat
  decode : List Nat → String

/-- The configured input token budget (src line 12). -/
def MAX_INPUT_TOKENS : Nat := 450

/-- The truncation step of `analyze_resume` (src lines 38-39):
`tokenizer.encode(text, max_length=MAX_INPUT_TOKENS, truncation=True)`
keeps the first `MAX_INPUT_TOKENS` token ids, and the decode maps them
back to text. -/
def truncate_input (tok : Tokenizer) (text : String) : String :=
  tok.decode ((tok.encode text).take MAX_INPUT_TOKENS)

/-- A concrete tokenizer instance used in witnesses: one token per
character. -/
def charTok : Tokenizer where
  encode s := s.data.map Char.toNat
  decode l := String.mk (l.map Char.ofNat)

/-- Lower-case hexadecimal digit, as `json.dumps` emits in `\uXXXX`. -/
def hexDig (n : Nat) : Char :=
  if n < 10 then Char.ofNat (48 + n) else Char.ofNat (87 + n)

/-- A `\uXXXX` escape for code unit `n`. -/
def uEsc (n : Nat) : List Char :=
  '\\' :: 'u' :: hexDig (n / 4096 % 16) :: hexDig (n / 256 % 16) :: hexDig (n / 16 % 16) ::
    hexDig (n % 16) :: []

/-- Character escaping of `json.dumps` with the default `ensure_ascii=True`:
printable ASCII passes through, the short escapes match Python's escape
table, and everything else becomes `\uXXXX` (a surrogate pair above the
basic multilingual plane). -/
def escapeChar (c : Char) : List Char :=
  if c == '"' then ['\\', '"']
  else if c == '\\' then ['\\', '\\']
  else if c == '\n' then ['\\', 'n']
  else if c == '\r' then ['\\', 'r']
  else if c == '\t' then ['\\', 't']
  else if c == '\x08' then ['\\', 'b']
  else if c == '\x0c' then ['\\', 'f']
  else if c.toNat < 32 then uEsc c.toNat
  else if c.toNat < 127 then [c]
  else if c.toNat < 65536 then uEsc c.toNat
  else uEsc (55296 + (c.toNat - 65536) / 1024) ++ uEsc (56320 + (c.toNat - 65536) % 1024)

/-- Escape a whole string body. -/
def escList : List Char → List Char
  | [] => []
  | c :: s => escapeChar c ++ escList s

/-- A serialized JSON string with continuation `k`. -/
def serStrK (s : String) (k : List Char) : List Char :=
  '"' :: (escList s.data ++ '"' :: k)

/-- The items of a non-empty string list as `json.dumps(·, indent=2)`
renders them one indent level inside the record, with continuation `k`
after the closing bracket. -/
def serItemsK : List String → List Char → List Char
  | [], k => k
  | x :: t, k =>
    ' ' :: ' ' :: ' ' :: ' ' ::
      serStrK x (if t.isEmpty then '\n' :: ' ' :: ' ' :: ']' :: k
                 else ',' :: '\n' :: serItemsK t k)

/-- A serialized string-list value of the record. -/
def serListK (xs : List String) (k : List Char) : List Char :=
  match xs with
  | [] => '[' :: ']' :: k
  | _ => '[' :: '\n' :: serItemsK xs k

/-- The export document of src line 164: `json.dumps(record, indent=2)`
for a four-field analysis record, character by character. -/
def exportChars (S : String) (st im jr : List String) : List Char :=
  '\x7b' :: '\n' :: ' ' :: ' ' :: '"' :: 's' :: 'u' :: 'm' :: 'm' :: 'a' :: 'r' :: 'y' ::
    '"' :: ':' :: ' ' ::
    serStrK S (',' :: '\n' :: ' ' :: ' ' :: '"' :: 's' :: 't' :: 'r' :: 'e' :: 'n' :: 'g' ::
      't' :: 'h' :: 's' :: '"' :: ':' :: ' ' ::
      serListK st (',' :: '\n' :: ' ' :: ' ' :: '"' :: 'i' :: 'm' :: 'p' :: 'r' :: 'o' ::
        'v' :: 'e' :: 'm' :: 'e' :: 'n' :: 't' :: 's' :: '"' :: ':' :: ' ' ::
        serListK im (',' :: '\n' :: ' ' :: ' ' :: '"' :: 'j' :: 'o' :: 'b' :: '_' :: 'r' ::
          'o' :: 'l' :: 'e' :: 's' :: '"' :: ':' :: ' ' ::
          serListK jr ('\n' :: '\x7d' :: []))))

/-- The export document as a string. -/
def exportRecordText (S : String) (st im jr : List String) : String :=
  String.mk (exportChars S st im jr)

/-- A complete four-field analysis record as a JSON value. -/
def mkRecord (S : String) (st im jr : List String) : JValue :=
  JValue.jobj [("summary", JValue.jstr S),
    ("strengths", JValue.jarr (st.map JValue.jstr)),
    ("improvements", JValue.jarr (im.map JValue.jstr)),
    ("job_roles", JValue.jarr (jr.map JValue.jstr))]


example : json_loads "\x7b\"a\": 1\x7d" = some (JValue.jobj [("a", JValue.jint 1)]) := rfl

example : json_loads " [1, \"x\", true, null] " =
    some (JValue.jarr [JValue.jint 1, JValue.jstr "x", JValue.jbool true, JValue.jnull]) := rfl

example : json_loads "\x7b\"a\": 1, \"a\": 2\x7d" = some (JValue.jobj [("a", JValue.jint 2)]) := rfl

example : json_loads "\x7b\"s\": \"\\u00e9\\n\"\x7d" =
    some (JValue.jobj [("s", JValue.jstr "é\n")]) := rfl

example : json_loads "\x7b\"a\": [\"x\", \"y\"" = none := rfl

example : json_loads "" = none := rfl

example : json_loads "\x7b\x7d extra" = none := rfl

example : analyze_extract "```json\n\x7b\"summary\": \"S\"\x7d\n```" =
    JValue.jobj [("summary", JValue.jstr "S")] := rfl

example : analyze_extract "json\n\"summary\": \"S\", \"strengths\": []" =
    JValue.jobj [("summary", JValue.jstr "S"), ("strengths", JValue.jarr [])] := rfl

example : analyze_extract "not json at all" =
    JValue.jobj [("error", JValue.jstr parseErrorMsg),
                 ("raw_output", JValue.jstr "not json at all")] := rfl

example : exportRecordText "s" ["a", "b"] [] ["r"] =
    "\x7b\n  \"summary\": \"s\",\n  \"strengths\": [\n    \"a\",\n    \"b\"\n  ],\n  \"improvements\": [],\n  \"job_roles\": [\n    \"r\"\n  ]\n\x7d" := rfl

example : escList "é\n\x7b\"".data = "\\u00e9\\n\x7b\\\"".data := rfl

example : json_loads (exportRecordText "s" ["a", "b"] [] ["r"]) =
    some (mkRecord "s" ["a", "b"] [] ["r"]) := rfl


/-- C5: for every raw model output the extraction ladder terminates in a
value: either the parsed record, or the diagnostic failure object built
at src line 96 — parse errors are converted to data, never propagated. -/
theorem C5_ladder_always_returns_value (raw : String) :
    (∃ v, json_loads (candidateText raw) = some v ∧ analyze_extract raw = v) ∨
    (json_loads (candidateText raw) = none ∧
      analyze_extract raw =
        JValue.jobj [("error", JValue.jstr parseErrorMsg),
                     ("raw_output", JValue.jstr raw)]) := by
  cases h : json_loads (candidateText raw) with
  | none => exact Or.inr ⟨rfl, by simp [analyze_extract, h]⟩
  | some v => exact Or.inl ⟨v, rfl, by simp [analyze_extract, h]⟩

/-- C10: whenever the strict parse of the candidate succeeds,
`analyze_resume` returns the parsed JSON value exactly as produced by the
parser, with no validation or shape checking afterwards. -/
theorem C10_parsed_value_returned_verbatim (raw : String) (v : JValue)
    (h : json_loads (candidateText raw) = some v) : analyze_extract raw = v := by
  simp [analyze_extract, h]

/-- Witness for C10: a fenced JSON array — not an object — is returned
as the analysis result unchanged. -/
theorem C10_witness :
    analyze_extract "```json\n[1, 2]\n```" = JValue.jarr [JValue.jint 1, JValue.jint 2] :=
  C10_parsed_value_returned_verbatim "```json\n[1, 2]\n```"
    (JValue.jarr [JValue.jint 1, JValue.jint 2]) rfl

/-- C3 counterexample: on the spec's own truncated-object input the code
returns a failure dict with only the two fields `error` and
`raw_output`; `attempted_parse_text` and `parse_error` are not in the
returned value (they are only rendered to the UI at src lines 94-95),
so the returned failure is a strict subset of the four claimed fields. -/
theorem C3_counterexample :
    analyze_extract "\x7b\"strengths\": [\"a\", \"b\"" =
      JValue.jobj [("error", JValue.jstr parseErrorMsg),
                   ("raw_output", JValue.jstr "\x7b\"strengths\": [\"a\", \"b\"")] ∧
    hasKey (analyze_extract "\x7b\"strengths\": [\"a\", \"b\"") "attempted_parse_text" = false ∧
    hasKey (analyze_extract "\x7b\"strengths\": [\"a\", \"b\"") "parse_error" = false :=
  ⟨rfl, rfl, rfl⟩

/-- C3 as amended: on every raw output whose candidate fails the strict
parse, the returned value is the failure dict carrying exactly the two
fields `error` (the fixed message) and `raw_output` (the raw output);
the attempted candidate text and the parser diagnostic are displayed to
the UI but are not part of the returned value. -/
theorem C3_amended_failure_carries_two_fields (raw : String)
    (h : json_loads (candidateText raw) = none) :
    analyze_extract raw =
      JValue.jobj [("error", JValue.jstr parseErrorMsg),
                   ("raw_output", JValue.jstr raw)] := by
  simp [analyze_extract, h]

/-- Witness for the amended C3, at the truncated-object input. -/
theorem C3_amended_witness :
    analyze_extract "json \"strengths\": [\"a\", \"b\"" =
      JValue.jobj [("error", JValue.jstr parseErrorMsg),
                   ("raw_output", JValue.jstr "json \"strengths\": [\"a\", \"b\"")] :=
  C3_amended_failure_carries_two_fields "json \"strengths\": [\"a\", \"b\"" rfl

/-- C4 counterexample: a parsed object missing the `job_roles` key is
returned with that key still absent — there is no validation/defaulting
step between the parse at src line 92 and the return at line 98. -/
theorem C4_counterexample :
    analyze_extract "```json\n\x7b\"summary\": \"S\", \"strengths\": [], \"improvements\": []\x7d\n```" =
      JValue.jobj [("summary", JValue.jstr "S"), ("strengths", JValue.jarr []),
                   ("improvements", JValue.jarr [])] ∧
    hasKey (analyze_extract
        "```json\n\x7b\"summary\": \"S\", \"strengths\": [], \"improvements\": []\x7d\n```")
      "job_roles" = false :=
  ⟨rfl, rfl⟩

/-- C4 as amended: the pipeline has no validation step — a successfully
parsed object is returned as-is, and a required field absent from it
(here `job_roles`) remains absent in the returned record; defaults
appear only in the presentation layer via `dict.get`. -/
theorem C4_amended_absent_field_stays_absent (raw : String) (v : JValue)
    (h : json_loads (candidateText raw) = some v)
    (habs : hasKey v "job_roles" = false) :
    hasKey (analyze_extract raw) "job_roles" = false := by
  have hv : analyze_extract raw = v := by simp [analyze_extract, h]
  rw [hv]; exact habs

/-- Witness for the amended C4. -/
theorem C4_amended_witness :
    hasKey (analyze_extract "```json\n\x7b\"summary\": \"T\", \"improvements\": []\x7d\n```")
      "job_roles" = false :=
  C4_amended_absent_field_stays_absent
    "```json\n\x7b\"summary\": \"T\", \"improvements\": []\x7d\n```"
    (JValue.jobj [("summary", JValue.jstr "T"), ("improvements", JValue.jarr [])])
    rfl rfl

theorem pjsb_lit (c : Char) (cs : List Char) (fuel : Nat) (h1 : 32 ≤ c.toNat)
    (h2 : c ≠ '"') (h3 : c ≠ '\\') :
    parseJStringBody (fuel + 1) (c :: cs) =
      (parseJStringBody fuel cs).map (fun p => (c :: p.1, p.2)) := by
  have e2 : (c == '"') = false := by simp [h2]
  have e3 : (c == '\\') = false := by simp [h3]
  simp only [parseJStringBody, e2, e3, Bool.false_eq_true, if_false]
  rw [if_neg (by omega : ¬ c.toNat < 32)]

theorem pjsb_plain (s rest : List Char) (fuel : Nat) (hf : s.length < fuel)
    (h : s.all plainChar = true) :
    parseJStringBody fuel (s ++ '"' :: rest) = some (s, rest) := by
  induction s generalizing fuel with
  | nil =>
    obtain ⟨f, rfl⟩ : ∃ f, fuel = f + 1 := ⟨fuel - 1, by omega⟩
    simp [parseJStringBody]
  | cons c t ih =>
    obtain ⟨f, rfl⟩ : ∃ f, fuel = f + 1 := ⟨fuel - 1, by omega⟩
    simp only [List.all_cons, Bool.and_eq_true] at h
    have hc := h.1
    simp only [plainChar, Bool.and_eq_true, bne_iff_ne, decide_eq_true_eq] at hc
    rw [List.cons_append, pjsb_lit c _ f hc.1.1 hc.1.2 hc.2,
      ih f (by simp at hf; omega) h.2]
    rfl

/-- The standard fuel `parseCore` supplies to the string-body parser is
always sufficient: restated form of `pjsb_plain` at that fuel. -/
theorem pjsb_plain_std (s rest : List Char) (h : s.all plainChar = true) :
    parseJStringBody ((s ++ '"' :: rest).length + 1) (s ++ '"' :: rest) = some (s, rest) :=
  pjsb_plain s rest _ (by simp [List.length_append]; omega) h

theorem parsesTo_str (cs q chars rest : List Char)
    (h1 : skipWs cs = '"' :: q)
    (h2 : parseJStringBody (q.length + 1) q = some (chars, rest)) :
    ParsesTo PMode.value cs (POut.pval (JValue.jstr (String.mk chars))) rest 1 := by
  intro fuel hf
  obtain ⟨f, rfl⟩ : ∃ f, fuel = f + 1 := ⟨fuel - 1, by omega⟩
  simp only [parseCore]
  rw [h1]
  simp [h2]

theorem parsesTo_obj (cs r q rest : List Char) (ps : List (String × JValue)) (n : Nat)
    (h1 : skipWs cs = '\x7b' :: r) (h2 : skipWs r = '"' :: q)
    (h3 : ParsesTo PMode.members ('"' :: q) (POut.pmembers ps) rest n) :
    ParsesTo PMode.value cs (POut.pval (JValue.jobj (mkDict ps))) rest (n + 1) := by
  intro fuel hf
  obtain ⟨f, rfl⟩ : ∃ f, fuel = f + 1 := ⟨fuel - 1, by omega⟩
  simp only [parseCore]
  rw [h1]
  simp only [h2]
  simp [h3 f (by omega)]

theorem parsesTo_arr (cs r q rest : List Char) (vs : List JValue) (n : Nat)
    (h1 : skipWs cs = '[' :: r) (h2 : skipWs r = '"' :: q)
    (h3 : ParsesTo PMode.items ('"' :: q) (POut.pitems vs) rest n) :
    ParsesTo PMode.value cs (POut.pval (JValue.jarr vs)) rest (n + 1) := by
  intro fuel hf
  obtain ⟨f, rfl⟩ : ∃ f, fuel = f + 1 := ⟨fuel - 1, by omega⟩
  simp only [parseCore]
  rw [h1]
  simp only [h2]
  simp [h3 f (by omega)]

theorem parsesTo_arr_empty (cs r rest : List Char)
    (h1 : skipWs cs = '[' :: r) (h2 : skipWs r = ']' :: rest) :
    ParsesTo PMode.value cs (POut.pval (JValue.jarr [])) rest 1 := by
  intro fuel hf
  obtain ⟨f, rfl⟩ : ∃ f, fuel = f + 1 := ⟨fuel - 1, by omega⟩
  simp only [parseCore]
  rw [h1]
  simp [h2]

theorem parsesTo_items_last (cs rest r2 : List Char) (v : JValue) (n : Nat)
    (h1 : ParsesTo PMode.value cs (POut.pval v) rest n)
    (h2 : skipWs rest = ']' :: r2) :
    ParsesTo PMode.items cs (POut.pitems [v]) r2 (n + 1) := by
  intro fuel hf
  obtain ⟨f, rfl⟩ : ∃ f, fuel = f + 1 := ⟨fuel - 1, by omega⟩
  simp only [parseCore]
  rw [h1 f (by omega)]
  simp [h2]

theorem parsesTo_items_cons (cs rest r2 rest2 : List Char) (v : JValue) (vs : List JValue)
    (n m : Nat)
    (h1 : ParsesTo PMode.value cs (POut.pval v) rest n)
    (h2 : skipWs rest = ',' :: r2)
    (h3 : ParsesTo PMode.items r2 (POut.pitems vs) rest2 m) :
    ParsesTo PMode.items cs (POut.pitems (v :: vs)) rest2 (n + m + 1) := by
  intro fuel hf
  obtain ⟨f, rfl⟩ : ∃ f, fuel = f + 1 := ⟨fuel - 1, by omega⟩
  simp only [parseCore]
  rw [h1 f (by omega)]
  simp only [h2]
  simp [h3 f (by omega)]

theorem parsesTo_members_last (cs kcs mid r2 rest2 r3 : List Char) (v : JValue) (n : Nat)
    (h1 : skipWs cs = '"' :: (kcs ++ '"' :: mid))
    (hk : kcs.all plainChar = true)
    (h2 : skipWs mid = ':' :: r2)
    (h3 : ParsesTo PMode.value r2 (POut.pval v) rest2 n)
    (h4 : skipWs rest2 = '\x7d' :: r3) :
    ParsesTo PMode.members cs (POut.pmembers [(String.mk kcs, v)]) r3 (n + 1) := by
  intro fuel hf
  obtain ⟨f, rfl⟩ : ∃ f, fuel = f + 1 := ⟨fuel - 1, by omega⟩
  simp only [parseCore]
  rw [h1]
  simp only [pjsb_plain_std kcs mid hk]
  simp only [h2]
  rw [h3 f (by omega)]
  simp [h4]

theorem parsesTo_members_cons (cs kcs mid r2 rest2 r3 rest3 : List Char) (v : JValue)
    (ps : List (String × JValue)) (n m : Nat)
    (h1 : skipWs cs = '"' :: (kcs ++ '"' :: mid))
    (hk : kcs.all plainChar = true)
    (h2 : skipWs mid = ':' :: r2)
    (h3 : ParsesTo PMode.value r2 (POut.pval v) rest2 n)
    (h4 : skipWs rest2 = ',' :: r3)
    (h5 : ParsesTo PMode.members r3 (POut.pmembers ps) rest3 m) :
    ParsesTo PMode.members cs (POut.pmembers ((String.mk kcs, v) :: ps)) rest3 (n + m + 1) := by
  intro fuel hf
  obtain ⟨f, rfl⟩ : ∃ f, fuel = f + 1 := ⟨fuel - 1, by omega⟩
  simp only [parseCore]
  rw [h1]
  simp only [pjsb_plain_std kcs mid hk]
  simp only [h2]
  rw [h3 f (by omega)]
  simp only [h4]
  simp [h5 f (by omega)]

theorem json_loads_of_parses (s : String) (v : JValue) (rest : List Char) (n : Nat)
    (h : ParsesTo PMode.value s.data (POut.pval v) rest n)
    (hn : n ≤ 4 * s.data.length + 16)
    (hrest : skipWs rest = []) :
    json_loads s = some v := by
  unfold json_loads
  rw [h _ hn]
  simp [hrest]

theorem splitAtSub_openFence_none (cs : List Char) (h : btick ∉ cs) :
    splitAtSub openFence cs = none := by
  induction cs with
  | nil => rfl
  | cons c t ih =>
    have hc : c ≠ btick := fun he => h (he ▸ List.mem_cons_self c t)
    have hpre : openFence.isPrefixOf (c :: t) = false := by
      simp only [openFence, List.isPrefixOf, Bool.and_eq_true, beq_iff_eq]
      simp [Ne.symm hc]
    simp only [splitAtSub, hpre, Bool.false_eq_true, if_false]
    rw [ih (fun hm => h (List.mem_cons_of_mem c hm))]
    rfl

theorem stripMarker_match (c1 c2 c3 c4 : Char) (rest : List Char)
    (h1 : c1.toLower = 'j') (h2 : c2.toLower = 's') (h3 : c3.toLower = 'o')
    (h4 : c4.toLower = 'n') :
    stripMarker (c1 :: c2 :: c3 :: c4 :: rest) = rest.dropWhile pyWs := by
  simp [stripMarker, h1, h2, h3, h4]

theorem pyStripL_append_last (xs : List Char) (d : Char) (hd : pyWs d = false) :
    pyStripL (xs ++ [d]) = xs.dropWhile pyWs ++ [d] := by
  have h1 : (xs ++ [d]).dropWhile pyWs = xs.dropWhile pyWs ++ [d] := by
    rw [List.dropWhile_append]
    by_cases he : (xs.dropWhile pyWs).isEmpty
    · simp [he, List.isEmpty_iff.mp he, List.dropWhile, hd]
    · simp [he]
  rw [pyStripL, h1, List.reverse_append]
  simp only [List.reverse_cons, List.reverse_nil, List.nil_append, List.singleton_append,
    List.dropWhile_cons, hd, Bool.false_eq_true, if_false]
  simp

theorem takeWhile_word_append (w : List Char) (c : Char) (X : List Char)
    (hw : w.all isWordChar = true) (hc : isWordChar c = false) :
    (w ++ c :: X).takeWhile isWordChar = w := by
  induction w with
  | nil => simp [List.takeWhile_cons, hc]
  | cons a t ih =>
    simp only [List.all_cons, Bool.and_eq_true] at hw
    simp [List.takeWhile_cons, hw.1, ih hw.2]

theorem matchQuotedKey_shape (w : List Char) (X : List Char)
    (hw : w.all isWordChar = true) (hne : w ≠ []) :
    matchQuotedKey ('"' :: (w ++ '"' :: ':' :: X)) = true := by
  have hq : isWordChar '"' = false := rfl
  simp only [matchQuotedKey, takeWhile_word_append w '"' (':' :: X) hw hq]
  rw [List.drop_left]
  simp [hne]

/-- C2: a raw output that begins with a bare `json` marker (any letter
case) followed by brace-less object interior text has the marker
stripped (tier 2), is wrapped in synthesized braces because it starts
with a `"key":` pattern (tier 3), and strict-parses (tier 4) into a
record whose summary is `S`. -/
theorem C2_marker_strip_and_brace_completion (c1 c2 c3 c4 : Char) (S : String)
    (h1 : c1.toLower = 'j') (h2 : c2.toLower = 's') (h3 : c3.toLower = 'o')
    (h4 : c4.toLower = 'n')
    (hplain : S.data.all plainChar = true)
    (hnb : btick ∉ S.data) :
    candidateText (String.mk [c1, c2, c3, c4] ++ "\n\"summary\": \"" ++ S ++
        "\", \"strengths\": []") =
      "\x7b\"summary\": \"" ++ S ++ "\", \"strengths\": []\x7d" ∧
    analyze_extract (String.mk [c1, c2, c3, c4] ++ "\n\"summary\": \"" ++ S ++
        "\", \"strengths\": []") =
      JValue.jobj [("summary", JValue.jstr S), ("strengths", JValue.jarr [])] := by
  set raw : String := String.mk [c1, c2, c3, c4] ++ "\n\"summary\": \"" ++ S ++
    "\", \"strengths\": []" with hraw
  have d0 : (String.mk [c1, c2, c3, c4]).data = [c1, c2, c3, c4] := rfl
  have d1 : ("\n\"summary\": \"" : String).data =
      '\n' :: '"' :: 's' :: 'u' :: 'm' :: 'm' :: 'a' :: 'r' :: 'y' :: '"' :: ':' :: ' ' ::
        '"' :: [] := rfl
  have d2 : ("\", \"strengths\": []" : String).data =
      '"' :: ',' :: ' ' :: '"' :: 's' :: 't' :: 'r' :: 'e' :: 'n' :: 'g' :: 't' :: 'h' ::
        's' :: '"' :: ':' :: ' ' :: '[' :: ']' :: [] := rfl
  have hdata : raw.data = c1 :: c2 :: c3 :: c4 :: '\n' :: '"' :: 's' :: 'u' :: 'm' :: 'm' ::
      'a' :: 'r' :: 'y' :: '"' :: ':' :: ' ' :: '"' ::
      (S.data ++ ('"' :: ',' :: ' ' :: '"' :: 's' :: 't' :: 'r' :: 'e' :: 'n' :: 'g' ::
        't' :: 'h' :: 's' :: '"' :: ':' :: ' ' :: '[' :: ']' :: [])) := by
    rw [hraw, String.data_append, String.data_append, String.data_append, d0, d1, d2]
    simp [List.append_assoc]
  have m1 : c1 ≠ btick := by intro he; rw [he] at h1; exact absurd h1 (by decide)
  have m2 : c2 ≠ btick := by intro he; rw [he] at h2; exact absurd h2 (by decide)
  have m3 : c3 ≠ btick := by intro he; rw [he] at h3; exact absurd h3 (by decide)
  have m4 : c4 ≠ btick := by intro he; rw [he] at h4; exact absurd h4 (by decide)
  have hmem : btick ∉ raw.data := by
    rw [hdata]
    simp only [List.mem_cons, List.mem_append, not_or]
    refine ⟨Ne.symm m1, Ne.symm m2, Ne.symm m3, Ne.symm m4, ?_⟩
    simp [hnb]
    decide
  have hfence : fenceContent raw.data = none := by
    rw [fenceContent, splitAtSub_openFence_none raw.data hmem]
  have hsm : stripMarker raw.data = '"' :: 's' :: 'u' :: 'm' :: 'm' :: 'a' :: 'r' :: 'y' ::
      '"' :: ':' :: ' ' :: '"' ::
      (S.data ++ ('"' :: ',' :: ' ' :: '"' :: 's' :: 't' :: 'r' :: 'e' :: 'n' :: 'g' ::
        't' :: 'h' :: 's' :: '"' :: ':' :: ' ' :: '[' :: ']' :: [])) := by
    rw [hdata, stripMarker_match c1 c2 c3 c4 _ h1 h2 h3 h4]
    rfl
  have hshape : ('"' :: 's' :: 'u' :: 'm' :: 'm' :: 'a' :: 'r' :: 'y' ::
      '"' :: ':' :: ' ' :: '"' ::
      (S.data ++ ('"' :: ',' :: ' ' :: '"' :: 's' :: 't' :: 'r' :: 'e' :: 'n' :: 'g' ::
        't' :: 'h' :: 's' :: '"' :: ':' :: ' ' :: '[' :: ']' :: [])) : List Char) =
      ('"' :: 's' :: 'u' :: 'm' :: 'm' :: 'a' :: 'r' :: 'y' ::
      '"' :: ':' :: ' ' :: '"' ::
      (S.data ++ ('"' :: ',' :: ' ' :: '"' :: 's' :: 't' :: 'r' :: 'e' :: 'n' :: 'g' ::
        't' :: 'h' :: 's' :: '"' :: ':' :: ' ' :: '[' :: []))) ++ [']'] := by
    simp [List.append_assoc]
  have hcleaned : pyStripL (stripMarker raw.data) = '"' :: 's' :: 'u' :: 'm' :: 'm' ::
      'a' :: 'r' :: 'y' :: '"' :: ':' :: ' ' :: '"' ::
      (S.data ++ ('"' :: ',' :: ' ' :: '"' :: 's' :: 't' :: 'r' :: 'e' :: 'n' :: 'g' ::
        't' :: 'h' :: 's' :: '"' :: ':' :: ' ' :: '[' :: ']' :: [])) := by
    rw [hsm, hshape, pyStripL_append_last _ _ (by decide)]
    simp [List.dropWhile_cons, show pyWs '"' = false from rfl, List.append_assoc]
  have hqk : matchQuotedKey ('"' :: 's' :: 'u' :: 'm' :: 'm' :: 'a' :: 'r' :: 'y' ::
      '"' :: ':' :: ' ' :: '"' ::
      (S.data ++ ('"' :: ',' :: ' ' :: '"' :: 's' :: 't' :: 'r' :: 'e' :: 'n' :: 'g' ::
        't' :: 'h' :: 's' :: '"' :: ':' :: ' ' :: '[' :: ']' :: []))) = true :=
    matchQuotedKey_shape ['s', 'u', 'm', 'm', 'a', 'r', 'y'] _ (by decide) (by decide)
  have hwrap : candidateChars raw.data = '\x7b' :: '"' :: 's' :: 'u' :: 'm' :: 'm' ::
      'a' :: 'r' :: 'y' :: '"' :: ':' :: ' ' :: '"' ::
      (S.data ++ ('"' :: ',' :: ' ' :: '"' :: 's' :: 't' :: 'r' :: 'e' :: 'n' :: 'g' ::
        't' :: 'h' :: 's' :: '"' :: ':' :: ' ' :: '[' :: ']' :: '\x7d' :: [])) := by
    rw [candidateChars, hfence, hcleaned]
    simp only [hqk, Bool.true_or, if_true]
    simp [List.append_assoc]
  have pv_arr0 : ParsesTo PMode.value (' ' :: '[' :: ']' :: '\x7d' :: [])
      (POut.pval (JValue.jarr [])) ('\x7d' :: []) 1 :=
    parsesTo_arr_empty _ _ _ rfl rfl
  have pm_str : ParsesTo PMode.members
      (' ' :: '"' :: 's' :: 't' :: 'r' :: 'e' :: 'n' :: 'g' :: 't' :: 'h' :: 's' :: '"' ::
        ':' :: ' ' :: '[' :: ']' :: '\x7d' :: [])
      (POut.pmembers [("strengths", JValue.jarr [])]) [] 2 :=
    parsesTo_members_last
      (' ' :: '"' :: 's' :: 't' :: 'r' :: 'e' :: 'n' :: 'g' :: 't' :: 'h' :: 's' :: '"' ::
        ':' :: ' ' :: '[' :: ']' :: '\x7d' :: [])
      ['s', 't', 'r', 'e', 'n', 'g', 't', 'h', 's']
      (':' :: ' ' :: '[' :: ']' :: '\x7d' :: [])
      (' ' :: '[' :: ']' :: '\x7d' :: [])
      ('\x7d' :: []) [] (JValue.jarr []) 1 rfl (by decide) rfl pv_arr0 rfl
  have pv_sum : ParsesTo PMode.value
      (' ' :: '"' :: (S.data ++ ('"' :: ',' :: ' ' :: '"' :: 's' :: 't' :: 'r' :: 'e' ::
        'n' :: 'g' :: 't' :: 'h' :: 's' :: '"' :: ':' :: ' ' :: '[' :: ']' :: '\x7d' :: [])))
      (POut.pval (JValue.jstr S))
      (',' :: ' ' :: '"' :: 's' :: 't' :: 'r' :: 'e' :: 'n' :: 'g' :: 't' :: 'h' :: 's' ::
        '"' :: ':' :: ' ' :: '[' :: ']' :: '\x7d' :: []) 1 :=
    parsesTo_str _
      (S.data ++ ('"' :: ',' :: ' ' :: '"' :: 's' :: 't' :: 'r' :: 'e' :: 'n' :: 'g' ::
        't' :: 'h' :: 's' :: '"' :: ':' :: ' ' :: '[' :: ']' :: '\x7d' :: []))
      S.data
      (',' :: ' ' :: '"' :: 's' :: 't' :: 'r' :: 'e' :: 'n' :: 'g' :: 't' :: 'h' :: 's' ::
        '"' :: ':' :: ' ' :: '[' :: ']' :: '\x7d' :: [])
      rfl
      (pjsb_plain_std S.data
        (',' :: ' ' :: '"' :: 's' :: 't' :: 'r' :: 'e' :: 'n' :: 'g' :: 't' :: 'h' :: 's' ::
          '"' :: ':' :: ' ' :: '[' :: ']' :: '\x7d' :: []) hplain)
  have pm_sum : ParsesTo PMode.members
      ('"' :: 's' :: 'u' :: 'm' :: 'm' :: 'a' :: 'r' :: 'y' :: '"' :: ':' :: ' ' :: '"' ::
        (S.data ++ ('"' :: ',' :: ' ' :: '"' :: 's' :: 't' :: 'r' :: 'e' :: 'n' :: 'g' ::
          't' :: 'h' :: 's' :: '"' :: ':' :: ' ' :: '[' :: ']' :: '\x7d' :: [])))
      (POut.pmembers [("summary", JValue.jstr S), ("strengths", JValue.jarr [])]) [] 4 :=
    parsesTo_members_cons _
      ['s', 'u', 'm', 'm', 'a', 'r', 'y']
      (':' :: ' ' :: '"' :: (S.data ++ ('"' :: ',' :: ' ' :: '"' :: 's' :: 't' :: 'r' ::
        'e' :: 'n' :: 'g' :: 't' :: 'h' :: 's' :: '"' :: ':' :: ' ' :: '[' :: ']' ::
        '\x7d' :: [])))
      (' ' :: '"' :: (S.data ++ ('"' :: ',' :: ' ' :: '"' :: 's' :: 't' :: 'r' :: 'e' ::
        'n' :: 'g' :: 't' :: 'h' :: 's' :: '"' :: ':' :: ' ' :: '[' :: ']' :: '\x7d' :: [])))
      (',' :: ' ' :: '"' :: 's' :: 't' :: 'r' :: 'e' :: 'n' :: 'g' :: 't' :: 'h' :: 's' ::
        '"' :: ':' :: ' ' :: '[' :: ']' :: '\x7d' :: [])
      (' ' :: '"' :: 's' :: 't' :: 'r' :: 'e' :: 'n' :: 'g' :: 't' :: 'h' :: 's' :: '"' ::
        ':' :: ' ' :: '[' :: ']' :: '\x7d' :: [])
      []
      (JValue.jstr S) [("strengths", JValue.jarr [])] 1 2
      rfl (by decide) rfl pv_sum rfl pm_str
  have pv_top : ParsesTo PMode.value
      ('\x7b' :: '"' :: 's' :: 'u' :: 'm' :: 'm' :: 'a' :: 'r' :: 'y' :: '"' :: ':' ::
        ' ' :: '"' :: (S.data ++ ('"' :: ',' :: ' ' :: '"' :: 's' :: 't' :: 'r' :: 'e' ::
        'n' :: 'g' :: 't' :: 'h' :: 's' :: '"' :: ':' :: ' ' :: '[' :: ']' :: '\x7d' :: [])))
      (POut.pval (JValue.jobj [("summary", JValue.jstr S), ("strengths", JValue.jarr [])]))
      [] 5 :=
    parsesTo_obj _ _ _ _ [("summary", JValue.jstr S), ("strengths", JValue.jarr [])] 4
      rfl rfl pm_sum
  have hload : json_loads (String.mk ('\x7b' :: '"' :: 's' :: 'u' :: 'm' :: 'm' :: 'a' ::
      'r' :: 'y' :: '"' :: ':' :: ' ' :: '"' :: (S.data ++ ('"' :: ',' :: ' ' :: '"' ::
      's' :: 't' :: 'r' :: 'e' :: 'n' :: 'g' :: 't' :: 'h' :: 's' :: '"' :: ':' :: ' ' ::
      '[' :: ']' :: '\x7d' :: [])))) =
      some (JValue.jobj [("summary", JValue.jstr S), ("strengths", JValue.jarr [])]) :=
    json_loads_of_parses _ _ [] 5 pv_top (by omega) rfl
  refine ⟨?_, ?_⟩
  · show String.mk (candidateChars raw.data) = _
    rw [hwrap]
    refine String.ext ?_
    show ('\x7b' :: '"' :: 's' :: 'u' :: 'm' :: 'm' :: 'a' :: 'r' :: 'y' :: '"' :: ':' ::
      ' ' :: '"' :: (S.data ++ ('"' :: ',' :: ' ' :: '"' :: 's' :: 't' :: 'r' :: 'e' ::
      'n' :: 'g' :: 't' :: 'h' :: 's' :: '"' :: ':' :: ' ' :: '[' :: ']' :: '\x7d' :: []))) =
      ("\x7b\"summary\": \"" ++ S ++ "\", \"strengths\": []\x7d").data
    rw [String.data_append, String.data_append]
    have e1 : ("\x7b\"summary\": \"" : String).data = '\x7b' :: '"' :: 's' :: 'u' :: 'm' ::
      'm' :: 'a' :: 'r' :: 'y' :: '"' :: ':' :: ' ' :: '"' :: [] := rfl
    have e2 : ("\", \"strengths\": []\x7d" : String).data = '"' :: ',' :: ' ' :: '"' ::
      's' :: 't' :: 'r' :: 'e' :: 'n' :: 'g' :: 't' :: 'h' :: 's' :: '"' :: ':' :: ' ' ::
      '[' :: ']' :: '\x7d' :: [] := rfl
    rw [e1, e2]
    simp [List.append_assoc]
  · show analyze_extract raw = _
    unfold analyze_extract candidateText
    rw [hwrap, hload]

theorem hasSub_cons (pat : List Char) (c : Char) (t : List Char) :
    hasSub pat (c :: t) = (pat.isPrefixOf (c :: t) || hasSub pat t) := by
  simp only [hasSub, splitAtSub]
  cases hp : pat.isPrefixOf (c :: t)
  · cases hs : splitAtSub pat t <;> simp [hs]
  · simp

theorem ccc_isPrefixOf_append_ws (cs X : List Char)
    (h : cccPat.isPrefixOf cs = false) :
    cccPat.isPrefixOf (cs ++ '\n' :: X) = false := by
  match cs with
  | [] =>
    simp [cccPat, List.isPrefixOf, show (btick == '\n') = false from rfl]
  | [d] =>
    simp [cccPat, List.isPrefixOf, show (btick == '\n') = false from rfl]
  | [d1, d2] =>
    simp [cccPat, List.isPrefixOf, show (btick == '\n') = false from rfl]
  | d1 :: d2 :: d3 :: t =>
    simp only [cccPat, List.isPrefixOf, Bool.and_eq_false_iff] at h ⊢
    simpa using h

theorem splitAtSub_ccc (s r : List Char) (h : hasSub cccPat s = false) :
    splitAtSub cccPat (s ++ '\n' :: btick :: btick :: btick :: r) = some (s ++ ['\n'], r) := by
  induction s with
  | nil =>
    simp only [List.nil_append]
    rw [splitAtSub,
      show cccPat.isPrefixOf ('\n' :: btick :: btick :: btick :: r) = false from by
        simp [cccPat, List.isPrefixOf, show (btick == '\n') = false from rfl]]
    simp only [Bool.false_eq_true, if_false]
    rw [splitAtSub,
      show cccPat.isPrefixOf (btick :: btick :: btick :: r) = true from by
        simp [cccPat, List.isPrefixOf]]
    simp [cccPat]
  | cons c t ih =>
    rw [hasSub_cons, Bool.or_eq_false_iff] at h
    rw [List.cons_append, splitAtSub,
      show cccPat.isPrefixOf (c :: (t ++ '\n' :: btick :: btick :: btick :: r)) = false from by
        have := ccc_isPrefixOf_append_ws (c :: t) (btick :: btick :: btick :: r) h.1
        simpa using this]
    simp only [Bool.false_eq_true, if_false]
    rw [ih h.2]
    simp

theorem pyStripL_cons_ws (c : Char) (cs : List Char) (h : pyWs c = true) :
    pyStripL (c :: cs) = pyStripL cs := by
  simp [pyStripL, List.dropWhile_cons, h]

theorem pyStripL_append_ws (xs : List Char) (d : Char) (hd : pyWs d = true) :
    pyStripL (xs ++ [d]) = pyStripL xs := by
  unfold pyStripL
  rw [List.dropWhile_append]
  by_cases he : (xs.dropWhile pyWs).isEmpty
  · simp [he, List.dropWhile_cons, hd, List.isEmpty_iff.mp he]
  · simp only [he, Bool.false_eq_true, if_false, List.reverse_append, List.reverse_cons,
      List.reverse_nil, List.nil_append, List.singleton_append, List.dropWhile_cons, hd,
      if_true]

/-- The candidate computed for a fenced raw output with trailing text:
exactly the stripped fenced content; tiers 2 and 3 are bypassed. -/
theorem candidate_fenced (s prose : List Char) (h : hasSub cccPat s = false) :
    candidateChars (btick :: btick :: btick :: 'j' :: 's' :: 'o' :: 'n' :: '\n' ::
      (s ++ '\n' :: btick :: btick :: btick :: prose)) = pyStripL s := by
  have hpre : cccPat.isPrefixOf ('\n' :: s) = false := by
    simp [cccPat, List.isPrefixOf, show (btick == '\n') = false from rfl]
  have hsub : hasSub cccPat ('\n' :: s) = false := by
    rw [hasSub_cons, hpre, h]
    rfl
  have htail : splitAtSub cccPat ('\n' :: (s ++ '\n' :: btick :: btick :: btick :: prose)) =
      some ('\n' :: (s ++ ['\n']), prose) :=
    splitAtSub_ccc ('\n' :: s) prose hsub
  have hfc : fenceContent (btick :: btick :: btick :: 'j' :: 's' :: 'o' :: 'n' :: '\n' ::
      (s ++ '\n' :: btick :: btick :: btick :: prose)) = some ('\n' :: (s ++ ['\n'])) := by
    rw [fenceContent, splitAtSub,
      show openFence.isPrefixOf (btick :: btick :: btick :: 'j' :: 's' :: 'o' :: 'n' ::
        '\n' :: (s ++ '\n' :: btick :: btick :: btick :: prose)) = true from by
          simp [openFence, List.isPrefixOf]]
    simp only [if_true, openFence, List.length_cons, List.length_nil]
    rw [show List.drop (0 + 1 + 1 + 1 + 1 + 1 + 1 + 1)
        (btick :: btick :: btick :: 'j' :: 's' :: 'o' :: 'n' :: '\n' ::
          (s ++ '\n' :: btick :: btick :: btick :: prose)) =
        '\n' :: (s ++ '\n' :: btick :: btick :: btick :: prose) from rfl]
    rw [htail]
  rw [candidateChars, hfc]
  show pyStripL ('\n' :: (s ++ ['\n'])) = pyStripL s
  rw [pyStripL_cons_ws '\n' _ rfl, pyStripL_append_ws _ '\n' rfl]

/-- Witness for C2: an upper-case marker is stripped case-insensitively
and the brace-less interior is wrapped and parsed. -/
theorem C2_witness :
    analyze_extract "JSON\n\"summary\": \"S\", \"strengths\": []" =
      JValue.jobj [("summary", JValue.jstr "S"), ("strengths", JValue.jarr [])] :=
  (C2_marker_strip_and_brace_completion 'J' 'S' 'O' 'N' "S" rfl rfl rfl rfl
    (by decide) (by decide)).2

/-- C6: on a raw output made of one complete ```json fence followed by
arbitrary trailing prose, the candidate handed to the parser is exactly
the stripped fenced content (tiers 2 and 3 are not applied), and
whenever that content parses, the trailing prose has no effect on the
extraction result. -/
theorem C6_fence_precedence (s prose : String) (h : hasSub cccPat s.data = false) :
    candidateText ("```json\n" ++ s ++ "\n```" ++ prose) = String.mk (pyStripL s.data) ∧
    ∀ v, json_loads (String.mk (pyStripL s.data)) = some v →
      analyze_extract ("```json\n" ++ s ++ "\n```" ++ prose) = v := by
  have hdata : ("```json\n" ++ s ++ "\n```" ++ prose).data =
      btick :: btick :: btick :: 'j' :: 's' :: 'o' :: 'n' :: '\n' ::
      (s.data ++ '\n' :: btick :: btick :: btick :: prose.data) := by
    rw [String.data_append, String.data_append, String.data_append,
      show ("```json\n" : String).data =
        btick :: btick :: btick :: 'j' :: 's' :: 'o' :: 'n' :: '\n' :: [] from rfl,
      show ("\n```" : String).data = '\n' :: btick :: btick :: btick :: [] from rfl]
    simp [List.append_assoc]
  have hc : candidateChars ("```json\n" ++ s ++ "\n```" ++ prose).data = pyStripL s.data := by
    rw [hdata]
    exact candidate_fenced s.data prose.data h
  refine ⟨?_, ?_⟩
  · show String.mk (candidateChars _) = _
    rw [hc]
  · intro v hv
    unfold analyze_extract candidateText
    rw [hc, hv]

/-- Witness for C6: trailing prose after the fence is ignored. -/
theorem C6_witness :
    analyze_extract ("```json\n\x7b\"ok\": true\x7d\n```" ++ " trailing prose here") =
      JValue.jobj [("ok", JValue.jbool true)] :=
  (C6_fence_precedence "\x7b\"ok\": true\x7d" " trailing prose here" (by decide)).2 _ rfl

/-- C1: a raw output that is one ```json fence around well-formed JSON
object text is extracted to exactly that object: the returned record is
the parsed object, with its summary and strengths fields verbatim. -/
theorem C1_fenced_object_extracted (s S : String) (strengths : List String)
    (l : List (String × JValue))
    (hns : hasSub cccPat s.data = false)
    (hp : json_loads (String.mk (pyStripL s.data)) = some (JValue.jobj l))
    (hsum : jLookup (JValue.jobj l) "summary" = some (JValue.jstr S))
    (hstr : jLookup (JValue.jobj l) "strengths" =
      some (JValue.jarr (strengths.map JValue.jstr))) :
    analyze_extract ("```json\n" ++ s ++ "\n```") = JValue.jobj l ∧
    jLookup (analyze_extract ("```json\n" ++ s ++ "\n```")) "summary" =
      some (JValue.jstr S) ∧
    jLookup (analyze_extract ("```json\n" ++ s ++ "\n```")) "strengths" =
      some (JValue.jarr (strengths.map JValue.jstr)) := by
  have hdata : ("```json\n" ++ s ++ "\n```").data =
      btick :: btick :: btick :: 'j' :: 's' :: 'o' :: 'n' :: '\n' ::
      (s.data ++ '\n' :: btick :: btick :: btick :: []) := by
    rw [String.data_append, String.data_append,
      show ("```json\n" : String).data =
        btick :: btick :: btick :: 'j' :: 's' :: 'o' :: 'n' :: '\n' :: [] from rfl,
      show ("\n```" : String).data = '\n' :: btick :: btick :: btick :: [] from rfl]
    simp [List.append_assoc]
  have hc : candidateChars ("```json\n" ++ s ++ "\n```").data = pyStripL s.data := by
    rw [hdata]
    exact candidate_fenced s.data [] hns
  have hres : analyze_extract ("```json\n" ++ s ++ "\n```") = JValue.jobj l := by
    unfold analyze_extract candidateText
    rw [hc, hp]
  exact ⟨hres, by rw [hres]; exact hsum, by rw [hres]; exact hstr⟩

set_option maxRecDepth 8192 in
/-- Witness for C1, at the spec's example shape with a five-element
strengths list. -/
theorem C1_witness :
    analyze_extract ("```json\n" ++
        "\x7b\"summary\": \"S\", \"strengths\": [\"a\", \"b\", \"c\", \"d\", \"e\"], \"improvements\": [\"i\"], \"job_roles\": [\"r\"]\x7d" ++
        "\n```") =
      JValue.jobj [("summary", JValue.jstr "S"),
        ("strengths", JValue.jarr [JValue.jstr "a", JValue.jstr "b", JValue.jstr "c",
          JValue.jstr "d", JValue.jstr "e"]),
        ("improvements", JValue.jarr [JValue.jstr "i"]),
        ("job_roles", JValue.jarr [JValue.jstr "r"])] ∧
    jLookup (analyze_extract ("```json\n" ++
        "\x7b\"summary\": \"S\", \"strengths\": [\"a\", \"b\", \"c\", \"d\", \"e\"], \"improvements\": [\"i\"], \"job_roles\": [\"r\"]\x7d" ++
        "\n```")) "summary" = some (JValue.jstr "S") ∧
    jLookup (analyze_extract ("```json\n" ++
        "\x7b\"summary\": \"S\", \"strengths\": [\"a\", \"b\", \"c\", \"d\", \"e\"], \"improvements\": [\"i\"], \"job_roles\": [\"r\"]\x7d" ++
        "\n```")) "strengths" =
      some (JValue.jarr (["a", "b", "c", "d", "e"].map JValue.jstr)) :=
  C1_fenced_object_extracted
    "\x7b\"summary\": \"S\", \"strengths\": [\"a\", \"b\", \"c\", \"d\", \"e\"], \"improvements\": [\"i\"], \"job_roles\": [\"r\"]\x7d"
    "S" ["a", "b", "c", "d", "e"] _ (by decide) rfl rfl rfl

/-- C7: the truncated text re-encodes to at most the configured budget,
under the collaborating tokenizer's round-trip contract on the retained
token prefix. -/
theorem C7_truncation_respects_budget (tok : Tokenizer) (text : String)
    (hrt : tok.encode (tok.decode ((tok.encode text).take MAX_INPUT_TOKENS)) =
      (tok.encode text).take MAX_INPUT_TOKENS) :
    (tok.encode (truncate_input tok text)).length ≤ MAX_INPUT_TOKENS := by
  rw [truncate_input, hrt]
  exact (List.length_take _ _).le.trans (Nat.min_le_left _ _)

/-- Witness for C7 with the per-character tokenizer on a short text. -/
theorem C7_witness :
    (charTok.encode (truncate_input charTok "resume text")).length ≤ MAX_INPUT_TOKENS :=
  C7_truncation_respects_budget charTok "resume text" (by decide)

/-- C8: when the input already fits the budget, truncation is the
identity, under the collaborating tokenizer's decode-encode inverse
contract on the input. -/
theorem C8_truncation_noop_on_short_input (tok : Tokenizer) (text : String)
    (hinv : tok.decode (tok.encode text) = text)
    (hlen : (tok.encode text).length ≤ MAX_INPUT_TOKENS) :
    truncate_input tok text = text := by
  rw [truncate_input, List.take_of_length_le hlen, hinv]

/-- Witness for C8 with the per-character tokenizer on a short text. -/
theorem C8_witness : truncate_input charTok "short resume" = "short resume" :=
  C8_truncation_noop_on_short_input charTok "short resume" (by decide) (by decide)

theorem hexRound : ∀ k, k < 16 → hexVal (hexDig k) = some k := by decide

theorem char_bounds (c : Char) : c.toNat < 55296 ∨ (57343 < c.toNat ∧ c.toNat < 1114112) :=
  c.valid

theorem decodeUEscape_bmp (n : Nat) (rest : List Char) (h1 : n < 65536)
    (h2 : ¬ (55296 ≤ n ∧ n ≤ 57343)) :
    decodeUEscape (hexDig (n / 4096 % 16) :: hexDig (n / 256 % 16) :: hexDig (n / 16 % 16) ::
      hexDig (n % 16) :: rest) = some (Char.ofNat n, rest) := by
  have e1 := hexRound (n / 4096 % 16) (by omega)
  have e2 := hexRound (n / 256 % 16) (by omega)
  have e3 := hexRound (n / 16 % 16) (by omega)
  have e4 := hexRound (n % 16) (by omega)
  simp only [decodeUEscape, e1, e2, e3, e4]
  have hn : 4096 * (n / 4096 % 16) + 256 * (n / 256 % 16) + 16 * (n / 16 % 16) + n % 16 =
      n := by omega
  rw [hn, if_neg (by omega : ¬ (55296 ≤ n ∧ n ≤ 56319)),
    if_neg (by omega : ¬ (56320 ≤ n ∧ n ≤ 57343))]

theorem decodeUEscape_pair (hi lo : Nat) (rest : List Char)
    (hhi : 55296 ≤ hi ∧ hi ≤ 56319) (hlo : 56320 ≤ lo ∧ lo ≤ 57343) :
    decodeUEscape (hexDig (hi / 4096 % 16) :: hexDig (hi / 256 % 16) ::
      hexDig (hi / 16 % 16) :: hexDig (hi % 16) ::
      ('\\' :: 'u' :: hexDig (lo / 4096 % 16) :: hexDig (lo / 256 % 16) ::
        hexDig (lo / 16 % 16) :: hexDig (lo % 16) :: rest)) =
      some (Char.ofNat (65536 + 1024 * (hi - 55296) + (lo - 56320)), rest) := by
  have e1 := hexRound (hi / 4096 % 16) (by omega)
  have e2 := hexRound (hi / 256 % 16) (by omega)
  have e3 := hexRound (hi / 16 % 16) (by omega)
  have e4 := hexRound (hi % 16) (by omega)
  have f1 := hexRound (lo / 4096 % 16) (by omega)
  have f2 := hexRound (lo / 256 % 16) (by omega)
  have f3 := hexRound (lo / 16 % 16) (by omega)
  have f4 := hexRound (lo % 16) (by omega)
  simp only [decodeUEscape, e1, e2, e3, e4, f1, f2, f3, f4]
  have hn : 4096 * (hi / 4096 % 16) + 256 * (hi / 256 % 16) + 16 * (hi / 16 % 16) +
      hi % 16 = hi := by omega
  have hm : 4096 * (lo / 4096 % 16) + 256 * (lo / 256 % 16) + 16 * (lo / 16 % 16) +
      lo % 16 = lo := by omega
  rw [hn, hm, if_pos hhi]
  simp only [show (('\\' : Char) == '\\') = true from rfl,
    show (('u' : Char) == 'u') = true from rfl, Bool.and_self, if_true]
  rw [if_pos hlo]

theorem pjsb_esc (fuel : Nat) (rest : List Char) (d : Char) (r : List Char)
    (hd : decodeEscape rest = some (d, r)) :
    parseJStringBody (fuel + 1) ('\\' :: rest) =
      (parseJStringBody fuel r).map (fun p => (d :: p.1, p.2)) := by
  simp only [parseJStringBody, show (('\\' : Char) == '"') = false from rfl,
    show (('\\' : Char) == '\\') = true from rfl, Bool.false_eq_true, if_false, if_true, hd]

theorem pjsb_uEsc_pair (fuel q r : Nat) (cs : List Char) (hq : q < 1024)
    (hr : r < 1024) :
    parseJStringBody (fuel + 1) ((uEsc (55296 + q) ++ uEsc (56320 + r)) ++ cs) =
      (parseJStringBody fuel cs).map
        (fun p => (Char.ofNat (65536 + 1024 * q + r) :: p.1, p.2)) := by
  rw [show (uEsc (55296 + q) ++ uEsc (56320 + r)) ++ cs =
      '\\' :: ('u' :: hexDig ((55296 + q) / 4096 % 16) :: hexDig ((55296 + q) / 256 % 16) ::
        hexDig ((55296 + q) / 16 % 16) :: hexDig ((55296 + q) % 16) ::
        ('\\' :: 'u' :: hexDig ((56320 + r) / 4096 % 16) :: hexDig ((56320 + r) / 256 % 16) ::
          hexDig ((56320 + r) / 16 % 16) :: hexDig ((56320 + r) % 16) :: cs)) from rfl]
  rw [pjsb_esc fuel _ (Char.ofNat (65536 + 1024 * q + r)) cs (by
    rw [show decodeEscape ('u' :: hexDig ((55296 + q) / 4096 % 16) ::
        hexDig ((55296 + q) / 256 % 16) :: hexDig ((55296 + q) / 16 % 16) ::
        hexDig ((55296 + q) % 16) ::
        ('\\' :: 'u' :: hexDig ((56320 + r) / 4096 % 16) :: hexDig ((56320 + r) / 256 % 16) ::
          hexDig ((56320 + r) / 16 % 16) :: hexDig ((56320 + r) % 16) :: cs)) =
        decodeUEscape (hexDig ((55296 + q) / 4096 % 16) ::
        hexDig ((55296 + q) / 256 % 16) :: hexDig ((55296 + q) / 16 % 16) ::
        hexDig ((55296 + q) % 16) ::
        ('\\' :: 'u' :: hexDig ((56320 + r) / 4096 % 16) :: hexDig ((56320 + r) / 256 % 16) ::
          hexDig ((56320 + r) / 16 % 16) :: hexDig ((56320 + r) % 16) :: cs)) from rfl]
    rw [decodeUEscape_pair (55296 + q) (56320 + r) cs (by omega) (by omega)]
    rw [show 55296 + q - 55296 = q from by omega, show 56320 + r - 56320 = r from by omega])]

theorem parse_escapeChar (c : Char) (cs : List Char) (fuel : Nat) :
    parseJStringBody (fuel + 1) (escapeChar c ++ cs) =
      (parseJStringBody fuel cs).map (fun p => (c :: p.1, p.2)) := by
  by_cases h1 : c = '"'
  · subst h1; exact pjsb_esc fuel ('"' :: cs) '"' cs rfl
  by_cases h2 : c = '\\'
  · subst h2; exact pjsb_esc fuel ('\\' :: cs) '\\' cs rfl
  by_cases h3 : c = '\n'
  · subst h3; exact pjsb_esc fuel ('n' :: cs) '\n' cs rfl
  by_cases h4 : c = '\r'
  · subst h4; exact pjsb_esc fuel ('r' :: cs) '\r' cs rfl
  by_cases h5 : c = '\t'
  · subst h5; exact pjsb_esc fuel ('t' :: cs) '\t' cs rfl
  by_cases h6 : c = '\x08'
  · subst h6; exact pjsb_esc fuel ('b' :: cs) '\x08' cs rfl
  by_cases h7 : c = '\x0c'
  · subst h7; exact pjsb_esc fuel ('f' :: cs) '\x0c' cs rfl
  have e1 : (c == '"') = false := by simp [h1]
  have e2 : (c == '\\') = false := by simp [h2]
  have e3 : (c == '\n') = false := by simp [h3]
  have e4 : (c == '\r') = false := by simp [h4]
  have e5 : (c == '\t') = false := by simp [h5]
  have e6 : (c == '\x08') = false := by simp [h6]
  have e7 : (c == '\x0c') = false := by simp [h7]
  by_cases hc1 : c.toNat < 32
  · have he : escapeChar c = uEsc c.toNat := by
      simp only [escapeChar, e1, e2, e3, e4, e5, e6, e7, Bool.false_eq_true, if_false,
        if_pos hc1]
    rw [he,
      show uEsc c.toNat ++ cs = '\\' :: ('u' :: hexDig (c.toNat / 4096 % 16) ::
        hexDig (c.toNat / 256 % 16) :: hexDig (c.toNat / 16 % 16) ::
        hexDig (c.toNat % 16) :: cs) from rfl,
      pjsb_esc fuel _ c cs (by
        rw [show decodeEscape ('u' :: hexDig (c.toNat / 4096 % 16) ::
          hexDig (c.toNat / 256 % 16) :: hexDig (c.toNat / 16 % 16) ::
          hexDig (c.toNat % 16) :: cs) = decodeUEscape (hexDig (c.toNat / 4096 % 16) ::
          hexDig (c.toNat / 256 % 16) :: hexDig (c.toNat / 16 % 16) ::
          hexDig (c.toNat % 16) :: cs) from rfl,
          decodeUEscape_bmp c.toNat cs (by omega) (by omega), Char.ofNat_toNat])]
  · by_cases hc2 : c.toNat < 127
    · have he : escapeChar c = [c] := by
        simp only [escapeChar, e1, e2, e3, e4, e5, e6, e7, Bool.false_eq_true, if_false,
          if_neg hc1, if_pos hc2]
      rw [he, show [c] ++ cs = c :: cs from rfl, pjsb_lit c cs fuel (by omega) h1 h2]
    · have hb := char_bounds c
      by_cases hc3 : c.toNat < 65536
      · have he : escapeChar c = uEsc c.toNat := by
          simp only [escapeChar, e1, e2, e3, e4, e5, e6, e7, Bool.false_eq_true, if_false,
            if_neg hc1, if_neg hc2, if_pos hc3]
        rw [he,
          show uEsc c.toNat ++ cs = '\\' :: ('u' :: hexDig (c.toNat / 4096 % 16) ::
            hexDig (c.toNat / 256 % 16) :: hexDig (c.toNat / 16 % 16) ::
            hexDig (c.toNat % 16) :: cs) from rfl,
          pjsb_esc fuel _ c cs (by
            rw [show decodeEscape ('u' :: hexDig (c.toNat / 4096 % 16) ::
              hexDig (c.toNat / 256 % 16) :: hexDig (c.toNat / 16 % 16) ::
              hexDig (c.toNat % 16) :: cs) = decodeUEscape (hexDig (c.toNat / 4096 % 16) ::
              hexDig (c.toNat / 256 % 16) :: hexDig (c.toNat / 16 % 16) ::
              hexDig (c.toNat % 16) :: cs) from rfl,
              decodeUEscape_bmp c.toNat cs hc3 (by omega), Char.ofNat_toNat])]
      · have he : escapeChar c = uEsc (55296 + (c.toNat - 65536) / 1024) ++
            uEsc (56320 + (c.toNat - 65536) % 1024) := by
          simp only [escapeChar, e1, e2, e3, e4, e5, e6, e7, Bool.false_eq_true, if_false,
            if_neg hc1, if_neg hc2, if_neg hc3]
        rw [he, pjsb_uEsc_pair fuel ((c.toNat - 65536) / 1024) ((c.toNat - 65536) % 1024)
          cs (by omega) (by omega),
          show 65536 + 1024 * ((c.toNat - 65536) / 1024) + (c.toNat - 65536) % 1024 =
            c.toNat from by omega, Char.ofNat_toNat]

theorem parse_escList (s rest : List Char) (fuel : Nat) (hf : s.length < fuel) :
    parseJStringBody fuel (escList s ++ '"' :: rest) = some (s, rest) := by
  induction s generalizing fuel with
  | nil =>
    obtain ⟨f, rfl⟩ : ∃ f, fuel = f + 1 := ⟨fuel - 1, by omega⟩
    simp [escList, parseJStringBody]
  | cons c t ih =>
    obtain ⟨f, rfl⟩ : ∃ f, fuel = f + 1 := ⟨fuel - 1, by omega⟩
    rw [show escList (c :: t) ++ '"' :: rest = escapeChar c ++ (escList t ++ '"' :: rest)
      from by simp [escList, List.append_assoc]]
    rw [parse_escapeChar c _ f, ih f (by simp at hf; omega)]
    rfl

theorem escapeChar_length_pos (c : Char) : 1 ≤ (escapeChar c).length := by
  unfold escapeChar
  repeat' split
  all_goals simp [uEsc]

theorem escList_length_ge (s : List Char) : s.length ≤ (escList s).length := by
  induction s with
  | nil => simp [escList]
  | cons c t ih =>
    simp only [escList, List.length_append, List.length_cons]
    have := escapeChar_length_pos c
    omega

theorem parse_escList_std (s rest : List Char) :
    parseJStringBody ((escList s ++ '"' :: rest).length + 1) (escList s ++ '"' :: rest) =
      some (s, rest) :=
  parse_escList s rest _ (by
    have := escList_length_ge s
    simp only [List.length_append, List.length_cons]
    omega)

theorem parsesTo_serStr (cs : List Char) (s : String) (k : List Char)
    (h1 : skipWs cs = '"' :: (escList s.data ++ '"' :: k)) :
    ParsesTo PMode.value cs (POut.pval (JValue.jstr s)) k 1 :=
  parsesTo_str cs _ s.data k h1 (parse_escList_std s.data k)

theorem ParsesTo.mono {m : PMode} {cs : List Char} {o : POut} {r : List Char} {n n' : Nat}
    (h : ParsesTo m cs o r n) (hn : n ≤ n') : ParsesTo m cs o r n' :=
  fun fuel hf => h fuel (le_trans hn hf)

theorem skipWs_ws_cons (c : Char) (cs : List Char) (hc : jsonWs c = true) :
    skipWs (c :: cs) = skipWs cs := by
  simp [skipWs, List.dropWhile_cons, hc]

theorem parseCore_value_skip (fuel : Nat) (c : Char) (cs : List Char)
    (hc : jsonWs c = true) :
    parseCore fuel PMode.value (c :: cs) = parseCore fuel PMode.value cs := by
  cases fuel with
  | zero => rfl
  | succ f => simp only [parseCore, skipWs_ws_cons c cs hc]

theorem parseCore_items_ws_cons (fuel : Nat) (c : Char) (cs : List Char)
    (hc : jsonWs c = true) :
    parseCore fuel PMode.items (c :: cs) = parseCore fuel PMode.items cs := by
  cases fuel with
  | zero => rfl
  | succ f => simp only [parseCore, parseCore_value_skip f c cs hc]

theorem ParsesTo.value_ws_cons {c : Char} {cs : List Char} {o : POut} {r : List Char}
    {n : Nat} (hc : jsonWs c = true) (h : ParsesTo PMode.value cs o r n) :
    ParsesTo PMode.value (c :: cs) o r n := fun fuel hf => by
  rw [parseCore_value_skip fuel c cs hc]
  exact h fuel hf

theorem ParsesTo.items_ws_cons {c : Char} {cs : List Char} {o : POut} {r : List Char}
    {n : Nat} (hc : jsonWs c = true) (h : ParsesTo PMode.items cs o r n) :
    ParsesTo PMode.items (c :: cs) o r n := fun fuel hf => by
  rw [parseCore_items_ws_cons fuel c cs hc]
  exact h fuel hf

theorem skipWs_idem (cs : List Char) : skipWs (skipWs cs) = skipWs cs :=
  List.dropWhile_idempotent jsonWs cs

theorem parseCore_value_skipWs (fuel : Nat) (cs : List Char) :
    parseCore fuel PMode.value (skipWs cs) = parseCore fuel PMode.value cs := by
  cases fuel with
  | zero => rfl
  | succ f => simp only [parseCore, skipWs_idem]

theorem parseCore_items_skipWs (fuel : Nat) (cs : List Char) :
    parseCore fuel PMode.items (skipWs cs) = parseCore fuel PMode.items cs := by
  cases fuel with
  | zero => rfl
  | succ f => simp only [parseCore, parseCore_value_skipWs f cs]

theorem ParsesTo.items_skipWs {cs : List Char} {o : POut} {r : List Char} {n : Nat}
    (h : ParsesTo PMode.items cs o r n) : ParsesTo PMode.items (skipWs cs) o r n :=
  fun fuel hf => by rw [parseCore_items_skipWs]; exact h fuel hf

theorem parsesTo_serItems (xs : List String) (k : List Char) (hne : xs ≠ []) :
    ParsesTo PMode.items (serItemsK xs k) (POut.pitems (xs.map JValue.jstr)) k
      (2 * xs.length + 1) := by
  induction xs with
  | nil => exact absurd rfl hne
  | cons x t ih =>
    have hv : ParsesTo PMode.value (serItemsK (x :: t) k) (POut.pval (JValue.jstr x))
        (if t.isEmpty then '\n' :: ' ' :: ' ' :: ']' :: k
         else ',' :: '\n' :: serItemsK t k) 1 := by
      apply parsesTo_serStr
      simp only [serItemsK, serStrK]
      rfl
    cases t with
    | nil =>
      simp only [List.isEmpty_nil, if_true] at hv
      exact (parsesTo_items_last _ _ _ (JValue.jstr x) 1 hv rfl).mono (by simp)
    | cons y t' =>
      simp only [List.isEmpty_cons, Bool.false_eq_true, if_false] at hv
      have hcons := parsesTo_items_cons _ _ _ _ (JValue.jstr x) ((y :: t').map JValue.jstr)
        1 (2 * (y :: t').length + 1) hv rfl
        (ParsesTo.items_ws_cons rfl (ih (by simp)))
      exact hcons.mono (by simp; omega)

theorem parsesTo_serList (xs : List String) (k : List Char) :
    ParsesTo PMode.value (serListK xs k) (POut.pval (JValue.jarr (xs.map JValue.jstr))) k
      (2 * xs.length + 2) := by
  cases xs with
  | nil => exact (parsesTo_arr_empty (serListK [] k) (']' :: k) k rfl rfl).mono (by omega)
  | cons x t =>
    have hq : skipWs (serItemsK (x :: t) k) =
        '"' :: (escList x.data ++ '"' ::
          (if t.isEmpty then '\n' :: ' ' :: ' ' :: ']' :: k
           else ',' :: '\n' :: serItemsK t k)) := by
      simp only [serItemsK, serStrK]
      rfl
    have hitems := (parsesTo_serItems (x :: t) k (by simp)).items_skipWs
    rw [hq] at hitems
    exact parsesTo_arr (serListK (x :: t) k) ('\n' :: serItemsK (x :: t) k) _ _
      ((x :: t).map JValue.jstr) (2 * (x :: t).length + 1)
      rfl (by rw [skipWs_ws_cons '\n' (serItemsK (x :: t) k) rfl]; exact hq) hitems

theorem serStrK_length_ge (s : String) (k : List Char) :
    2 + k.length ≤ (serStrK s k).length := by
  simp only [serStrK, List.length_cons, List.length_append]
  omega

theorem serItemsK_length_ge (xs : List String) (k : List Char) :
    6 * xs.length + k.length ≤ (serItemsK xs k).length := by
  induction xs generalizing k with
  | nil => simp [serItemsK]
  | cons x t ih =>
    cases t with
    | nil =>
      have h1 := serStrK_length_ge x ('\n' :: ' ' :: ' ' :: ']' :: k)
      simp only [serItemsK, List.isEmpty_nil, if_true, List.length_cons,
        List.length_nil] at h1 ⊢
      omega
    | cons y t' =>
      have h1 := serStrK_length_ge x (',' :: '\n' :: serItemsK (y :: t') k)
      have h2 := ih k
      simp only [serItemsK, List.isEmpty_cons, Bool.false_eq_true, if_false,
        List.length_cons, List.length_nil] at h1 h2 ⊢
      omega

theorem serListK_length_ge (xs : List String) (k : List Char) :
    2 + 6 * xs.length + k.length ≤ (serListK xs k).length := by
  cases xs with
  | nil =>
    simp only [serListK, List.length_cons, List.length_nil]
    omega
  | cons x t =>
    have h0 : serListK (x :: t) k = '[' :: '\n' :: serItemsK (x :: t) k := rfl
    have h1 := serItemsK_length_ge (x :: t) k
    rw [h0]
    simp only [List.length_cons] at h1 ⊢
    omega

theorem exportChars_length_ge (S : String) (st im jr : List String) :
    30 + 6 * (st.length + im.length + jr.length) ≤ (exportChars S st im jr).length := by
  have h4 := serListK_length_ge jr ('\n' :: '\x7d' :: [])
  have h3 := serListK_length_ge im (',' :: '\n' :: ' ' :: ' ' :: '"' :: 'j' :: 'o' :: 'b' :: '_' :: 'r' :: 'o' :: 'l' :: 'e' :: 's' :: '"' :: ':' :: ' ' :: serListK jr ('\n' :: '\x7d' :: []))
  have h2 := serListK_length_ge st (',' :: '\n' :: ' ' :: ' ' :: '"' :: 'i' :: 'm' :: 'p' :: 'r' :: 'o' :: 'v' :: 'e' :: 'm' :: 'e' :: 'n' :: 't' :: 's' :: '"' :: ':' :: ' ' :: serListK im (',' :: '\n' :: ' ' :: ' ' :: '"' :: 'j' :: 'o' :: 'b' :: '_' :: 'r' :: 'o' :: 'l' :: 'e' :: 's' :: '"' :: ':' :: ' ' :: serListK jr ('\n' :: '\x7d' :: [])))
  have h1 := serStrK_length_ge S (',' :: '\n' :: ' ' :: ' ' :: '"' :: 's' :: 't' :: 'r' :: 'e' :: 'n' :: 'g' :: 't' :: 'h' :: 's' :: '"' :: ':' :: ' ' :: serListK st (',' :: '\n' :: ' ' :: ' ' :: '"' :: 'i' :: 'm' :: 'p' :: 'r' :: 'o' :: 'v' :: 'e' :: 'm' :: 'e' :: 'n' :: 't' :: 's' :: '"' :: ':' :: ' ' :: serListK im (',' :: '\n' :: ' ' :: ' ' :: '"' :: 'j' :: 'o' :: 'b' :: '_' :: 'r' :: 'o' :: 'l' :: 'e' :: 's' :: '"' :: ':' :: ' ' :: serListK jr ('\n' :: '\x7d' :: []))))
  simp only [List.length_cons] at h1 h2 h3 h4
  simp only [exportChars, List.length_cons]
  omega

/-- C9: serializing a complete analysis record with the export step
(`json.dumps(·, indent=2)`, src line 164) and re-parsing the text with
`json.loads` yields the record again, field for field. -/
theorem C9_export_round_trip (S : String) (st im jr : List String) :
    json_loads (exportRecordText S st im jr) = some (mkRecord S st im jr) := by
  have v_jr : ParsesTo PMode.value (' ' :: serListK jr ('\n' :: '\x7d' :: []))
      (POut.pval (JValue.jarr (jr.map JValue.jstr))) ('\n' :: '\x7d' :: []) (2 * jr.length + 2) :=
    ParsesTo.value_ws_cons rfl (parsesTo_serList jr _)
  have m_jr : ParsesTo PMode.members ('\n' :: ' ' :: ' ' :: '"' :: 'j' :: 'o' :: 'b' :: '_' :: 'r' :: 'o' :: 'l' :: 'e' :: 's' :: '"' :: ':' :: ' ' :: serListK jr ('\n' :: '\x7d' :: []))
      (POut.pmembers [("job_roles", JValue.jarr (jr.map JValue.jstr))]) []
      (2 * jr.length + 3) :=
    parsesTo_members_last ('\n' :: ' ' :: ' ' :: '"' :: 'j' :: 'o' :: 'b' :: '_' :: 'r' :: 'o' :: 'l' :: 'e' :: 's' :: '"' :: ':' :: ' ' :: serListK jr ('\n' :: '\x7d' :: []))
      ['j', 'o', 'b', '_', 'r', 'o', 'l', 'e', 's']
      (':' :: ' ' :: serListK jr ('\n' :: '\x7d' :: []))
      (' ' :: serListK jr ('\n' :: '\x7d' :: []))
      ('\n' :: '\x7d' :: []) [] (JValue.jarr (jr.map JValue.jstr)) (2 * jr.length + 2)
      rfl (by decide) rfl v_jr rfl
  have v_im : ParsesTo PMode.value (' ' :: serListK im (',' :: '\n' :: ' ' :: ' ' :: '"' :: 'j' :: 'o' :: 'b' :: '_' :: 'r' :: 'o' :: 'l' :: 'e' :: 's' :: '"' :: ':' :: ' ' :: serListK jr ('\n' :: '\x7d' :: [])))
      (POut.pval (JValue.jarr (im.map JValue.jstr))) (',' :: '\n' :: ' ' :: ' ' :: '"' :: 'j' :: 'o' :: 'b' :: '_' :: 'r' :: 'o' :: 'l' :: 'e' :: 's' :: '"' :: ':' :: ' ' :: serListK jr ('\n' :: '\x7d' :: []))
      (2 * im.length + 2) :=
    ParsesTo.value_ws_cons rfl (parsesTo_serList im _)
  have m_im : ParsesTo PMode.members ('\n' :: ' ' :: ' ' :: '"' :: 'i' :: 'm' :: 'p' :: 'r' :: 'o' :: 'v' :: 'e' :: 'm' :: 'e' :: 'n' :: 't' :: 's' :: '"' :: ':' :: ' ' :: serListK im (',' :: '\n' :: ' ' :: ' ' :: '"' :: 'j' :: 'o' :: 'b' :: '_' :: 'r' :: 'o' :: 'l' :: 'e' :: 's' :: '"' :: ':' :: ' ' :: serListK jr ('\n' :: '\x7d' :: [])))
      (POut.pmembers [("improvements", JValue.jarr (im.map JValue.jstr)),
        ("job_roles", JValue.jarr (jr.map JValue.jstr))]) []
      (2 * im.length + 2 + (2 * jr.length + 3) + 1) :=
    parsesTo_members_cons ('\n' :: ' ' :: ' ' :: '"' :: 'i' :: 'm' :: 'p' :: 'r' :: 'o' :: 'v' :: 'e' :: 'm' :: 'e' :: 'n' :: 't' :: 's' :: '"' :: ':' :: ' ' :: serListK im (',' :: '\n' :: ' ' :: ' ' :: '"' :: 'j' :: 'o' :: 'b' :: '_' :: 'r' :: 'o' :: 'l' :: 'e' :: 's' :: '"' :: ':' :: ' ' :: serListK jr ('\n' :: '\x7d' :: [])))
      ['i', 'm', 'p', 'r', 'o', 'v', 'e', 'm', 'e', 'n', 't', 's']
      (':' :: ' ' :: serListK im (',' :: '\n' :: ' ' :: ' ' :: '"' :: 'j' :: 'o' :: 'b' :: '_' :: 'r' :: 'o' :: 'l' :: 'e' :: 's' :: '"' :: ':' :: ' ' :: serListK jr ('\n' :: '\x7d' :: [])))
      (' ' :: serListK im (',' :: '\n' :: ' ' :: ' ' :: '"' :: 'j' :: 'o' :: 'b' :: '_' :: 'r' :: 'o' :: 'l' :: 'e' :: 's' :: '"' :: ':' :: ' ' :: serListK jr ('\n' :: '\x7d' :: [])))
      (',' :: '\n' :: ' ' :: ' ' :: '"' :: 'j' :: 'o' :: 'b' :: '_' :: 'r' :: 'o' :: 'l' :: 'e' :: 's' :: '"' :: ':' :: ' ' :: serListK jr ('\n' :: '\x7d' :: []))
      ('\n' :: ' ' :: ' ' :: '"' :: 'j' :: 'o' :: 'b' :: '_' :: 'r' :: 'o' :: 'l' :: 'e' :: 's' :: '"' :: ':' :: ' ' :: serListK jr ('\n' :: '\x7d' :: [])) []
      (JValue.jarr (im.map JValue.jstr))
      [("job_roles", JValue.jarr (jr.map JValue.jstr))]
      (2 * im.length + 2) (2 * jr.length + 3)
      rfl (by decide) rfl v_im rfl m_jr
  have v_st : ParsesTo PMode.value (' ' :: serListK st (',' :: '\n' :: ' ' :: ' ' :: '"' :: 'i' :: 'm' :: 'p' :: 'r' :: 'o' :: 'v' :: 'e' :: 'm' :: 'e' :: 'n' :: 't' :: 's' :: '"' :: ':' :: ' ' :: serListK im (',' :: '\n' :: ' ' :: ' ' :: '"' :: 'j' :: 'o' :: 'b' :: '_' :: 'r' :: 'o' :: 'l' :: 'e' :: 's' :: '"' :: ':' :: ' ' :: serListK jr ('\n' :: '\x7d' :: []))))
      (POut.pval (JValue.jarr (st.map JValue.jstr))) (',' :: '\n' :: ' ' :: ' ' :: '"' :: 'i' :: 'm' :: 'p' :: 'r' :: 'o' :: 'v' :: 'e' :: 'm' :: 'e' :: 'n' :: 't' :: 's' :: '"' :: ':' :: ' ' :: serListK im (',' :: '\n' :: ' ' :: ' ' :: '"' :: 'j' :: 'o' :: 'b' :: '_' :: 'r' :: 'o' :: 'l' :: 'e' :: 's' :: '"' :: ':' :: ' ' :: serListK jr ('\n' :: '\x7d' :: [])))
      (2 * st.length + 2) :=
    ParsesTo.value_ws_cons rfl (parsesTo_serList st _)
  have m_st : ParsesTo PMode.members ('\n' :: ' ' :: ' ' :: '"' :: 's' :: 't' :: 'r' :: 'e' :: 'n' :: 'g' :: 't' :: 'h' :: 's' :: '"' :: ':' :: ' ' :: serListK st (',' :: '\n' :: ' ' :: ' ' :: '"' :: 'i' :: 'm' :: 'p' :: 'r' :: 'o' :: 'v' :: 'e' :: 'm' :: 'e' :: 'n' :: 't' :: 's' :: '"' :: ':' :: ' ' :: serListK im (',' :: '\n' :: ' ' :: ' ' :: '"' :: 'j' :: 'o' :: 'b' :: '_' :: 'r' :: 'o' :: 'l' :: 'e' :: 's' :: '"' :: ':' :: ' ' :: serListK jr ('\n' :: '\x7d' :: []))))
      (POut.pmembers [("strengths", JValue.jarr (st.map JValue.jstr)),
        ("improvements", JValue.jarr (im.map JValue.jstr)),
        ("job_roles", JValue.jarr (jr.map JValue.jstr))]) []
      (2 * st.length + 2 + (2 * im.length + 2 + (2 * jr.length + 3) + 1) + 1) :=
    parsesTo_members_cons ('\n' :: ' ' :: ' ' :: '"' :: 's' :: 't' :: 'r' :: 'e' :: 'n' :: 'g' :: 't' :: 'h' :: 's' :: '"' :: ':' :: ' ' :: serListK st (',' :: '\n' :: ' ' :: ' ' :: '"' :: 'i' :: 'm' :: 'p' :: 'r' :: 'o' :: 'v' :: 'e' :: 'm' :: 'e' :: 'n' :: 't' :: 's' :: '"' :: ':' :: ' ' :: serListK im (',' :: '\n' :: ' ' :: ' ' :: '"' :: 'j' :: 'o' :: 'b' :: '_' :: 'r' :: 'o' :: 'l' :: 'e' :: 's' :: '"' :: ':' :: ' ' :: serListK jr ('\n' :: '\x7d' :: []))))
      ['s', 't', 'r', 'e', 'n', 'g', 't', 'h', 's']
      (':' :: ' ' :: serListK st (',' :: '\n' :: ' ' :: ' ' :: '"' :: 'i' :: 'm' :: 'p' :: 'r' :: 'o' :: 'v' :: 'e' :: 'm' :: 'e' :: 'n' :: 't' :: 's' :: '"' :: ':' :: ' ' :: serListK im (',' :: '\n' :: ' ' :: ' ' :: '"' :: 'j' :: 'o' :: 'b' :: '_' :: 'r' :: 'o' :: 'l' :: 'e' :: 's' :: '"' :: ':' :: ' ' :: serListK jr ('\n' :: '\x7d' :: []))))
      (' ' :: serListK st (',' :: '\n' :: ' ' :: ' ' :: '"' :: 'i' :: 'm' :: 'p' :: 'r' :: 'o' :: 'v' :: 'e' :: 'm' :: 'e' :: 'n' :: 't' :: 's' :: '"' :: ':' :: ' ' :: serListK im (',' :: '\n' :: ' ' :: ' ' :: '"' :: 'j' :: 'o' :: 'b' :: '_' :: 'r' :: 'o' :: 'l' :: 'e' :: 's' :: '"' :: ':' :: ' ' :: serListK jr ('\n' :: '\x7d' :: []))))
      (',' :: '\n' :: ' ' :: ' ' :: '"' :: 'i' :: 'm' :: 'p' :: 'r' :: 'o' :: 'v' :: 'e' :: 'm' :: 'e' :: 'n' :: 't' :: 's' :: '"' :: ':' :: ' ' :: serListK im (',' :: '\n' :: ' ' :: ' ' :: '"' :: 'j' :: 'o' :: 'b' :: '_' :: 'r' :: 'o' :: 'l' :: 'e' :: 's' :: '"' :: ':' :: ' ' :: serListK jr ('\n' :: '\x7d' :: [])))
      ('\n' :: ' ' :: ' ' :: '"' :: 'i' :: 'm' :: 'p' :: 'r' :: 'o' :: 'v' :: 'e' :: 'm' :: 'e' :: 'n' :: 't' :: 's' :: '"' :: ':' :: ' ' :: serListK im (',' :: '\n' :: ' ' :: ' ' :: '"' :: 'j' :: 'o' :: 'b' :: '_' :: 'r' :: 'o' :: 'l' :: 'e' :: 's' :: '"' :: ':' :: ' ' :: serListK jr ('\n' :: '\x7d' :: []))) []
      (JValue.jarr (st.map JValue.jstr))
      [("improvements", JValue.jarr (im.map JValue.jstr)),
        ("job_roles", JValue.jarr (jr.map JValue.jstr))]
      (2 * st.length + 2)
      (2 * im.length + 2 + (2 * jr.length + 3) + 1)
      rfl (by decide) rfl v_st rfl m_im
  have v_sum : ParsesTo PMode.value (' ' :: serStrK S (',' :: '\n' :: ' ' :: ' ' :: '"' :: 's' :: 't' :: 'r' :: 'e' :: 'n' :: 'g' :: 't' :: 'h' :: 's' :: '"' :: ':' :: ' ' :: serListK st (',' :: '\n' :: ' ' :: ' ' :: '"' :: 'i' :: 'm' :: 'p' :: 'r' :: 'o' :: 'v' :: 'e' :: 'm' :: 'e' :: 'n' :: 't' :: 's' :: '"' :: ':' :: ' ' :: serListK im (',' :: '\n' :: ' ' :: ' ' :: '"' :: 'j' :: 'o' :: 'b' :: '_' :: 'r' :: 'o' :: 'l' :: 'e' :: 's' :: '"' :: ':' :: ' ' :: serListK jr ('\n' :: '\x7d' :: [])))))
      (POut.pval (JValue.jstr S)) (',' :: '\n' :: ' ' :: ' ' :: '"' :: 's' :: 't' :: 'r' :: 'e' :: 'n' :: 'g' :: 't' :: 'h' :: 's' :: '"' :: ':' :: ' ' :: serListK st (',' :: '\n' :: ' ' :: ' ' :: '"' :: 'i' :: 'm' :: 'p' :: 'r' :: 'o' :: 'v' :: 'e' :: 'm' :: 'e' :: 'n' :: 't' :: 's' :: '"' :: ':' :: ' ' :: serListK im (',' :: '\n' :: ' ' :: ' ' :: '"' :: 'j' :: 'o' :: 'b' :: '_' :: 'r' :: 'o' :: 'l' :: 'e' :: 's' :: '"' :: ':' :: ' ' :: serListK jr ('\n' :: '\x7d' :: [])))) 1 :=
    parsesTo_serStr _ S _ rfl
  have m_sum : ParsesTo PMode.members ('"' :: 's' :: 'u' :: 'm' :: 'm' :: 'a' :: 'r' :: 'y' :: '"' :: ':' :: ' ' :: serStrK S (',' :: '\n' :: ' ' :: ' ' :: '"' :: 's' :: 't' :: 'r' :: 'e' :: 'n' :: 'g' :: 't' :: 'h' :: 's' :: '"' :: ':' :: ' ' :: serListK st (',' :: '\n' :: ' ' :: ' ' :: '"' :: 'i' :: 'm' :: 'p' :: 'r' :: 'o' :: 'v' :: 'e' :: 'm' :: 'e' :: 'n' :: 't' :: 's' :: '"' :: ':' :: ' ' :: serListK im (',' :: '\n' :: ' ' :: ' ' :: '"' :: 'j' :: 'o' :: 'b' :: '_' :: 'r' :: 'o' :: 'l' :: 'e' :: 's' :: '"' :: ':' :: ' ' :: serListK jr ('\n' :: '\x7d' :: [])))))
      (POut.pmembers [("summary", JValue.jstr S),
        ("strengths", JValue.jarr (st.map JValue.jstr)),
        ("improvements", JValue.jarr (im.map JValue.jstr)),
        ("job_roles", JValue.jarr (jr.map JValue.jstr))]) []
      (1 + (2 * st.length + 2 + (2 * im.length + 2 + (2 * jr.length + 3) + 1) + 1) + 1) :=
    parsesTo_members_cons ('"' :: 's' :: 'u' :: 'm' :: 'm' :: 'a' :: 'r' :: 'y' :: '"' :: ':' :: ' ' :: serStrK S (',' :: '\n' :: ' ' :: ' ' :: '"' :: 's' :: 't' :: 'r' :: 'e' :: 'n' :: 'g' :: 't' :: 'h' :: 's' :: '"' :: ':' :: ' ' :: serListK st (',' :: '\n' :: ' ' :: ' ' :: '"' :: 'i' :: 'm' :: 'p' :: 'r' :: 'o' :: 'v' :: 'e' :: 'm' :: 'e' :: 'n' :: 't' :: 's' :: '"' :: ':' :: ' ' :: serListK im (',' :: '\n' :: ' ' :: ' ' :: '"' :: 'j' :: 'o' :: 'b' :: '_' :: 'r' :: 'o' :: 'l' :: 'e' :: 's' :: '"' :: ':' :: ' ' :: serListK jr ('\n' :: '\x7d' :: [])))))
      ['s', 'u', 'm', 'm', 'a', 'r', 'y']
      (':' :: ' ' :: serStrK S (',' :: '\n' :: ' ' :: ' ' :: '"' :: 's' :: 't' :: 'r' :: 'e' :: 'n' :: 'g' :: 't' :: 'h' :: 's' :: '"' :: ':' :: ' ' :: serListK st (',' :: '\n' :: ' ' :: ' ' :: '"' :: 'i' :: 'm' :: 'p' :: 'r' :: 'o' :: 'v' :: 'e' :: 'm' :: 'e' :: 'n' :: 't' :: 's' :: '"' :: ':' :: ' ' :: serListK im (',' :: '\n' :: ' ' :: ' ' :: '"' :: 'j' :: 'o' :: 'b' :: '_' :: 'r' :: 'o' :: 'l' :: 'e' :: 's' :: '"' :: ':' :: ' ' :: serListK jr ('\n' :: '\x7d' :: [])))))
      (' ' :: serStrK S (',' :: '\n' :: ' ' :: ' ' :: '"' :: 's' :: 't' :: 'r' :: 'e' :: 'n' :: 'g' :: 't' :: 'h' :: 's' :: '"' :: ':' :: ' ' :: serListK st (',' :: '\n' :: ' ' :: ' ' :: '"' :: 'i' :: 'm' :: 'p' :: 'r' :: 'o' :: 'v' :: 'e' :: 'm' :: 'e' :: 'n' :: 't' :: 's' :: '"' :: ':' :: ' ' :: serListK im (',' :: '\n' :: ' ' :: ' ' :: '"' :: 'j' :: 'o' :: 'b' :: '_' :: 'r' :: 'o' :: 'l' :: 'e' :: 's' :: '"' :: ':' :: ' ' :: serListK jr ('\n' :: '\x7d' :: [])))))
      (',' :: '\n' :: ' ' :: ' ' :: '"' :: 's' :: 't' :: 'r' :: 'e' :: 'n' :: 'g' :: 't' :: 'h' :: 's' :: '"' :: ':' :: ' ' :: serListK st (',' :: '\n' :: ' ' :: ' ' :: '"' :: 'i' :: 'm' :: 'p' :: 'r' :: 'o' :: 'v' :: 'e' :: 'm' :: 'e' :: 'n' :: 't' :: 's' :: '"' :: ':' :: ' ' :: serListK im (',' :: '\n' :: ' ' :: ' ' :: '"' :: 'j' :: 'o' :: 'b' :: '_' :: 'r' :: 'o' :: 'l' :: 'e' :: 's' :: '"' :: ':' :: ' ' :: serListK jr ('\n' :: '\x7d' :: []))))
      ('\n' :: ' ' :: ' ' :: '"' :: 's' :: 't' :: 'r' :: 'e' :: 'n' :: 'g' :: 't' :: 'h' :: 's' :: '"' :: ':' :: ' ' :: serListK st (',' :: '\n' :: ' ' :: ' ' :: '"' :: 'i' :: 'm' :: 'p' :: 'r' :: 'o' :: 'v' :: 'e' :: 'm' :: 'e' :: 'n' :: 't' :: 's' :: '"' :: ':' :: ' ' :: serListK im (',' :: '\n' :: ' ' :: ' ' :: '"' :: 'j' :: 'o' :: 'b' :: '_' :: 'r' :: 'o' :: 'l' :: 'e' :: 's' :: '"' :: ':' :: ' ' :: serListK jr ('\n' :: '\x7d' :: [])))) []
      (JValue.jstr S)
      [("strengths", JValue.jarr (st.map JValue.jstr)),
        ("improvements", JValue.jarr (im.map JValue.jstr)),
        ("job_roles", JValue.jarr (jr.map JValue.jstr))]
      1
      (2 * st.length + 2 + (2 * im.length + 2 + (2 * jr.length + 3) + 1) + 1)
      rfl (by decide) rfl v_sum rfl m_st
  have top : ParsesTo PMode.value (exportChars S st im jr)
      (POut.pval (JValue.jobj (mkDict [("summary", JValue.jstr S),
        ("strengths", JValue.jarr (st.map JValue.jstr)),
        ("improvements", JValue.jarr (im.map JValue.jstr)),
        ("job_roles", JValue.jarr (jr.map JValue.jstr))]))) []
      (1 + (2 * st.length + 2 + (2 * im.length + 2 + (2 * jr.length + 3) + 1) + 1) + 1 + 1) :=
    parsesTo_obj (exportChars S st im jr)
      ('\n' :: ' ' :: ' ' :: '"' :: 's' :: 'u' :: 'm' :: 'm' :: 'a' :: 'r' :: 'y' :: '"' :: ':' :: ' ' :: serStrK S (',' :: '\n' :: ' ' :: ' ' :: '"' :: 's' :: 't' :: 'r' :: 'e' :: 'n' :: 'g' :: 't' :: 'h' :: 's' :: '"' :: ':' :: ' ' :: serListK st (',' :: '\n' :: ' ' :: ' ' :: '"' :: 'i' :: 'm' :: 'p' :: 'r' :: 'o' :: 'v' :: 'e' :: 'm' :: 'e' :: 'n' :: 't' :: 's' :: '"' :: ':' :: ' ' :: serListK im (',' :: '\n' :: ' ' :: ' ' :: '"' :: 'j' :: 'o' :: 'b' :: '_' :: 'r' :: 'o' :: 'l' :: 'e' :: 's' :: '"' :: ':' :: ' ' :: serListK jr ('\n' :: '\x7d' :: [])))))
      ('s' :: 'u' :: 'm' :: 'm' :: 'a' :: 'r' :: 'y' :: '"' :: ':' :: ' ' :: serStrK S (',' :: '\n' :: ' ' :: ' ' :: '"' :: 's' :: 't' :: 'r' :: 'e' :: 'n' :: 'g' :: 't' :: 'h' :: 's' :: '"' :: ':' :: ' ' :: serListK st (',' :: '\n' :: ' ' :: ' ' :: '"' :: 'i' :: 'm' :: 'p' :: 'r' :: 'o' :: 'v' :: 'e' :: 'm' :: 'e' :: 'n' :: 't' :: 's' :: '"' :: ':' :: ' ' :: serListK im (',' :: '\n' :: ' ' :: ' ' :: '"' :: 'j' :: 'o' :: 'b' :: '_' :: 'r' :: 'o' :: 'l' :: 'e' :: 's' :: '"' :: ':' :: ' ' :: serListK jr ('\n' :: '\x7d' :: []))))) []
      [("summary", JValue.jstr S),
        ("strengths", JValue.jarr (st.map JValue.jstr)),
        ("improvements", JValue.jarr (im.map JValue.jstr)),
        ("job_roles", JValue.jarr (jr.map JValue.jstr))]
      (1 + (2 * st.length + 2 + (2 * im.length + 2 + (2 * jr.length + 3) + 1) + 1) + 1)
      rfl rfl m_sum
  have hmk : mkDict [("summary", JValue.jstr S),
      ("strengths", JValue.jarr (st.map JValue.jstr)),
      ("improvements", JValue.jarr (im.map JValue.jstr)),
      ("job_roles", JValue.jarr (jr.map JValue.jstr))] =
      [("summary", JValue.jstr S),
      ("strengths", JValue.jarr (st.map JValue.jstr)),
      ("improvements", JValue.jarr (im.map JValue.jstr)),
      ("job_roles", JValue.jarr (jr.map JValue.jstr))] := rfl
  refine json_loads_of_parses _ _ []
    (1 + (2 * st.length + 2 + (2 * im.length + 2 + (2 * jr.length + 3) + 1) + 1) + 1 + 1)
    ?_ ?_ rfl
  · rw [show mkRecord S st im jr = JValue.jobj (mkDict [("summary", JValue.jstr S),
      ("strengths", JValue.jarr (st.map JValue.jstr)),
      ("improvements", JValue.jarr (im.map JValue.jstr)),
      ("job_roles", JValue.jarr (jr.map JValue.jstr))]) from by rw [hmk]; rfl]
    exact top
  · have hlen := exportChars_length_ge S st im jr
    show 1 + (2 * st.length + 2 + (2 * im.length + 2 + (2 * jr.length + 3) + 1) + 1) + 1 + 1 ≤
      4 * (exportChars S st im jr).length + 16
    omega
